import Mathlib

/-!
Verification development for the `mydia_p2p_core` host runtime
(`src/native/mydia_p2p_core/src/lib.rs`).

The development shallowly embeds:
 * the serde_cbor wire codec used for `MydiaRequest` / `MydiaResponse`
   (CBOR items, canonical minimal-length headers, fuel-based decoder);
 * the HLS server-push framing (4-byte big-endian length prefixes, zero
   terminator) and the client-side chunk reader;
 * the event-loop state that the commands `SendResponse`, `SendHlsHeader`,
   `SendHlsChunk`, `FinishHlsStream` operate on;
 * the inbound-request timeout path, the connection registry, the
   path-type monitor, the startup event sequence, target-id resolution
   for outbound requests, and the identity store.

Bytes are modelled as `Nat` (values below 256 where produced by the
encoder); Rust `String` payloads are modelled as their UTF-8 byte lists
(`List Nat`); machine integers are `Nat` with explicit bounds where
overflow matters.
-/

namespace Mydia

/-! ## CBOR byte-level primitives (serde_cbor) -/

/-- Big-endian byte string of width `k` for the value `n` (assuming
`n < 256 ^ k`); models `u16/u32/u64::to_be_bytes`. -/
def beBytes : Nat → Nat → List Nat
  | 0, _ => []
  | k + 1, n => (n / 256 ^ k) % 256 :: beBytes k (n % 256 ^ k)

/-- Big-endian value of a byte string; models `uNN::from_be_bytes`. -/
def fromBE : List Nat → Nat
  | [] => 0
  | b :: rest => b * 256 ^ rest.length + fromBE rest

/-- Read exactly `k` bytes from the front of the input; models
`read_exact` on a byte stream. `none` when the input is too short. -/
def readN (k : Nat) (l : List Nat) : Option (List Nat × List Nat) :=
  if k ≤ l.length then some (l.take k, l.drop k) else none

/-- Canonical CBOR head for major type `maj` and argument `n`: the
minimal-width argument encoding serde_cbor's serializer writes. -/
def encHead (maj : Nat) (n : Nat) : List Nat :=
  if n < 24 then [maj * 32 + n]
  else if n < 256 then [maj * 32 + 24, n]
  else if n < 65536 then (maj * 32 + 25) :: beBytes 2 n
  else if n < 4294967296 then (maj * 32 + 26) :: beBytes 4 n
  else (maj * 32 + 27) :: beBytes 8 n

/-- Decode a CBOR head: returns `(major, argument, rest)`. -/
def decHead : List Nat → Option (Nat × Nat × List Nat)
  | [] => none
  | b :: rest =>
    let maj := b / 32
    let ai := b % 32
    if ai < 24 then some (maj, ai, rest)
    else if ai = 24 then
      match rest with
      | n :: r => some (maj, n, r)
      | [] => none
    else if ai = 25 then
      match readN 2 rest with
      | some (bs, r) => some (maj, fromBE bs, r)
      | none => none
    else if ai = 26 then
      match readN 4 rest with
      | some (bs, r) => some (maj, fromBE bs, r)
      | none => none
    else if ai = 27 then
      match readN 8 rest with
      | some (bs, r) => some (maj, fromBE bs, r)
      | none => none
    else none

/-! ## CBOR items

The subset of CBOR produced by serde_cbor for the mydia types:
unsigned integers, text strings (kept as UTF-8 byte lists), arrays,
maps, booleans and null. -/

inductive Item where
  | uint (n : Nat)
  | text (s : List Nat)
  | arr (xs : List Item)
  | map (kvs : List (Item × Item))
  | bool (b : Bool)
  | null

mutual

/-- Encode one CBOR item (serde_cbor serializer output). -/
def encItem : Item → List Nat
  | .uint n => encHead 0 n
  | .text s => encHead 3 s.length ++ s
  | .arr xs => encHead 4 xs.length ++ encItems xs
  | .map kvs => encHead 5 kvs.length ++ encKVs kvs
  | .bool b => if b then [245] else [244]
  | .null => [246]

/-- Encode a list of items back to back. -/
def encItems : List Item → List Nat
  | [] => []
  | x :: xs => encItem x ++ encItems xs

/-- Encode a list of key/value pairs back to back. -/
def encKVs : List (Item × Item) → List Nat
  | [] => []
  | (k, v) :: xs => encItem k ++ encItem v ++ encKVs xs

end

/-- Decode `k` consecutive occurrences of whatever `f` parses. -/
def decSeq {α : Type} (f : List Nat → Option (α × List Nat)) :
    Nat → List Nat → Option (List α × List Nat)
  | 0, l => some ([], l)
  | k + 1, l =>
    match f l with
    | none => none
    | some (x, r) =>
      match decSeq f k r with
      | some (xs, r2) => some (x :: xs, r2)
      | none => none

/-- Decode a key/value pair: two consecutive values. -/
def decPair {α : Type} (f : List Nat → Option (α × List Nat))
    (l : List Nat) : Option ((α × α) × List Nat) :=
  match f l with
  | none => none
  | some (k, r) =>
    match f r with
    | none => none
    | some (v, r2) => some ((k, v), r2)

/-- Fuel-based CBOR item decoder (models serde_cbor's recursive-descent
parser; the fuel bounds nesting depth). -/
def decItem : Nat → List Nat → Option (Item × List Nat)
  | 0, _ => none
  | fuel + 1, l =>
    match decHead l with
    | none => none
    | some (maj, n, rest) =>
      if maj = 0 then some (.uint n, rest)
      else if maj = 3 then
        match readN n rest with
        | some (s, r) => some (.text s, r)
        | none => none
      else if maj = 4 then
        match decSeq (decItem fuel) n rest with
        | some (xs, r) => some (.arr xs, r)
        | none => none
      else if maj = 5 then
        match decSeq (decPair (decItem fuel)) n rest with
        | some (kvs, r) => some (.map kvs, r)
        | none => none
      else if maj = 7 then
        if n = 20 then some (.bool false, rest)
        else if n = 21 then some (.bool true, rest)
        else if n = 22 then some (.null, rest)
        else none
      else none

mutual

/-- Nesting depth of an item: the fuel needed to decode it. -/
def depth : Item → Nat
  | .uint _ => 1
  | .text _ => 1
  | .arr xs => 1 + depthItems xs
  | .map kvs => 1 + depthKVs kvs
  | .bool _ => 1
  | .null => 1

def depthItems : List Item → Nat
  | [] => 0
  | x :: xs => max (depth x) (depthItems xs)

def depthKVs : List (Item × Item) → Nat
  | [] => 0
  | (k, v) :: xs => max (max (depth k) (depth v)) (depthKVs xs)

end

mutual

/-- Machine-integer bounds under which the canonical encoding is
faithful: CBOR head arguments are at most 64 bits wide (in the Rust
source all such quantities are `u64`/`usize` values). -/
def ItemWF : Item → Prop
  | .uint n => n < 18446744073709551616
  | .text s => s.length < 18446744073709551616
  | .arr xs => xs.length < 18446744073709551616 ∧ ItemsWF xs
  | .map kvs => kvs.length < 18446744073709551616 ∧ KVsWF kvs
  | .bool _ => True
  | .null => True

def ItemsWF : List Item → Prop
  | [] => True
  | x :: xs => ItemWF x ∧ ItemsWF xs

def KVsWF : List (Item × Item) → Prop
  | [] => True
  | (k, v) :: xs => ItemWF k ∧ ItemWF v ∧ KVsWF xs

end

/-- Decode a complete CBOR value from a byte string, rejecting trailing
bytes (models `serde_cbor::from_slice`). The fuel `l.length + 1`
dominates the nesting depth of any value encoded in `l`. -/
def decodeCbor (l : List Nat) : Option Item :=
  match decItem (l.length + 1) l with
  | some (it, []) => some it
  | _ => none

/-! ## Mydia request/response data model

Rust `String` values are modelled as their UTF-8 byte lists; `u16`,
`u32` and `u64` fields are `Nat` with bounds tracked by the `wf`
predicates below. -/

/-- UTF-8 byte list of a Rust `String`. -/
abbrev RStr := List Nat

/-- Byte list of an ASCII string literal (field and variant names). -/
def ascii (s : String) : List Nat := s.data.map Char.toNat

structure PairingRequest where
  claim_code : RStr
  device_name : RStr
  device_type : RStr
  device_os : Option RStr
deriving DecidableEq

structure ReadMediaRequest where
  file_path : RStr
  offset : Nat
  length : Nat
deriving DecidableEq

structure GraphQLRequest where
  query : RStr
  «variables» : Option RStr
  operation_name : Option RStr
  auth_token : Option RStr
deriving DecidableEq

structure HlsRequest where
  session_id : RStr
  path : RStr
  range_start : Option Nat
  range_end : Option Nat
  auth_token : Option RStr
deriving DecidableEq

structure HlsResponseHeader where
  status : Nat
  content_type : RStr
  content_length : Nat
  content_range : Option RStr
  cache_control : Option RStr
deriving DecidableEq

structure BlobDownloadRequest where
  job_id : RStr
  auth_token : Option RStr
deriving DecidableEq

structure BlobDownloadResponse where
  success : Bool
  ticket : Option RStr
  filename : Option RStr
  file_size : Option Nat
  error : Option RStr
deriving DecidableEq

structure GraphQLResponse where
  data : Option RStr
  errors : Option RStr
deriving DecidableEq

structure PairingResponse where
  success : Bool
  media_token : Option RStr
  access_token : Option RStr
  device_token : Option RStr
  error : Option RStr
  direct_urls : List RStr
deriving DecidableEq

inductive MydiaRequest where
  | Ping
  | Pairing (r : PairingRequest)
  | ReadMedia (r : ReadMediaRequest)
  | GraphQL (r : GraphQLRequest)
  | HlsStream (r : HlsRequest)
  | BlobDownload (r : BlobDownloadRequest)
  | Custom (bytes : List Nat)
deriving DecidableEq

inductive MydiaResponse where
  | Pong
  | Pairing (r : PairingResponse)
  | MediaChunk (bytes : List Nat)
  | GraphQL (r : GraphQLResponse)
  | HlsHeader (h : HlsResponseHeader)
  | BlobDownload (r : BlobDownloadResponse)
  | Custom (bytes : List Nat)
  | Error (msg : RStr)
deriving DecidableEq

/-! ### Serialization to CBOR items (serde derive, externally tagged) -/

/-- `Option<String>`: `None` → null, `Some` → text. -/
def optText : Option RStr → Item
  | none => .null
  | some s => .text s

/-- `Option<u64>`: `None` → null, `Some` → unsigned. -/
def optUint : Option Nat → Item
  | none => .null
  | some n => .uint n

def PairingRequest.toItem (r : PairingRequest) : Item :=
  .map [(.text (ascii "claim_code"), .text r.claim_code),
        (.text (ascii "device_name"), .text r.device_name),
        (.text (ascii "device_type"), .text r.device_type),
        (.text (ascii "device_os"), optText r.device_os)]

def ReadMediaRequest.toItem (r : ReadMediaRequest) : Item :=
  .map [(.text (ascii "file_path"), .text r.file_path),
        (.text (ascii "offset"), .uint r.offset),
        (.text (ascii "length"), .uint r.length)]

def GraphQLRequest.toItem (r : GraphQLRequest) : Item :=
  .map [(.text (ascii "query"), .text r.query),
        (.text (ascii "variables"), optText r.«variables»),
        (.text (ascii "operation_name"), optText r.operation_name),
        (.text (ascii "auth_token"), optText r.auth_token)]

def HlsRequest.toItem (r : HlsRequest) : Item :=
  .map [(.text (ascii "session_id"), .text r.session_id),
        (.text (ascii "path"), .text r.path),
        (.text (ascii "range_start"), optUint r.range_start),
        (.text (ascii "range_end"), optUint r.range_end),
        (.text (ascii "auth_token"), optText r.auth_token)]

def HlsResponseHeader.toItem (h : HlsResponseHeader) : Item :=
  .map [(.text (ascii "status"), .uint h.status),
        (.text (ascii "content_type"), .text h.content_type),
        (.text (ascii "content_length"), .uint h.content_length),
        (.text (ascii "content_range"), optText h.content_range),
        (.text (ascii "cache_control"), optText h.cache_control)]

def BlobDownloadRequest.toItem (r : BlobDownloadRequest) : Item :=
  .map [(.text (ascii "job_id"), .text r.job_id),
        (.text (ascii "auth_token"), optText r.auth_token)]

def BlobDownloadResponse.toItem (r : BlobDownloadResponse) : Item :=
  .map [(.text (ascii "success"), .bool r.success),
        (.text (ascii "ticket"), optText r.ticket),
        (.text (ascii "filename"), optText r.filename),
        (.text (ascii "file_size"), optUint r.file_size),
        (.text (ascii "error"), optText r.error)]

def GraphQLResponse.toItem (r : GraphQLResponse) : Item :=
  .map [(.text (ascii "data"), optText r.data),
        (.text (ascii "errors"), optText r.errors)]

def PairingResponse.toItem (r : PairingResponse) : Item :=
  .map [(.text (ascii "success"), .bool r.success),
        (.text (ascii "media_token"), optText r.media_token),
        (.text (ascii "access_token"), optText r.access_token),
        (.text (ascii "device_token"), optText r.device_token),
        (.text (ascii "error"), optText r.error),
        (.text (ascii "direct_urls"), .arr (r.direct_urls.map Item.text))]

/-- Externally tagged enum encoding: unit variant → variant-name text;
data variant → single-entry map keyed by the variant name. -/
def MydiaRequest.toItem : MydiaRequest → Item
  | .Ping => .text (ascii "Ping")
  | .Pairing r => .map [(.text (ascii "Pairing"), r.toItem)]
  | .ReadMedia r => .map [(.text (ascii "ReadMedia"), r.toItem)]
  | .GraphQL r => .map [(.text (ascii "GraphQL"), r.toItem)]
  | .HlsStream r => .map [(.text (ascii "HlsStream"), r.toItem)]
  | .BlobDownload r => .map [(.text (ascii "BlobDownload"), r.toItem)]
  | .Custom bs => .map [(.text (ascii "Custom"), .arr (bs.map Item.uint))]

def MydiaResponse.toItem : MydiaResponse → Item
  | .Pong => .text (ascii "Pong")
  | .Pairing r => .map [(.text (ascii "Pairing"), r.toItem)]
  | .MediaChunk bs => .map [(.text (ascii "MediaChunk"), .arr (bs.map Item.uint))]
  | .GraphQL r => .map [(.text (ascii "GraphQL"), r.toItem)]
  | .HlsHeader h => .map [(.text (ascii "HlsHeader"), h.toItem)]
  | .BlobDownload r => .map [(.text (ascii "BlobDownload"), r.toItem)]
  | .Custom bs => .map [(.text (ascii "Custom"), .arr (bs.map Item.uint))]
  | .Error msg => .map [(.text (ascii "Error"), .text msg)]

/-! ### Deserialization from CBOR items (serde derive visitors) -/

/-- Field lookup by name in a decoded map, as the derived struct visitor
does: entries are scanned in order, unknown keys are ignored. -/
def kvGet : List (Item × Item) → List Nat → Option Item
  | [], _ => none
  | (Item.text k, v) :: rest, key => if k = key then some v else kvGet rest key
  | _ :: rest, key => kvGet rest key

/-- Required `String` field. -/
def asText : Option Item → Option RStr
  | some (.text s) => some s
  | _ => none

/-- `Option<String>` field; a missing field deserializes to `None`. -/
def asOptText : Option Item → Option (Option RStr)
  | none => some none
  | some .null => some none
  | some (.text s) => some (some s)
  | _ => none

/-- Required `u64` field. -/
def asUint : Option Item → Option Nat
  | some (.uint n) => some n
  | _ => none

/-- Required narrower unsigned field (`u16`/`u32`): deserialization
fails when the value does not fit, as `try_into` does. -/
def asUintLt (bound : Nat) : Option Item → Option Nat
  | some (.uint n) => if n < bound then some n else none
  | _ => none

/-- `Option<u64>` field; a missing field deserializes to `None`. -/
def asOptUint : Option Item → Option (Option Nat)
  | none => some none
  | some .null => some none
  | some (.uint n) => some (some n)
  | _ => none

/-- Required `bool` field. -/
def asBool : Option Item → Option Bool
  | some (.bool b) => some b
  | _ => none

/-- Elements of a `Vec<String>`. -/
def textsOf : List Item → Option (List RStr)
  | [] => some []
  | .text s :: xs => (textsOf xs).map (s :: ·)
  | _ => none

/-- `Vec<String>` field with `#[serde(default)]`: a missing field
deserializes to the empty vector. -/
def asTextArr : Option Item → Option (List RStr)
  | none => some []
  | some (.arr xs) => textsOf xs
  | _ => none

/-- Elements of a `Vec<u8>`; each integer must fit in `u8`. -/
def bytesOf : List Item → Option (List Nat)
  | [] => some []
  | .uint n :: xs => if n < 256 then (bytesOf xs).map (n :: ·) else none
  | _ => none

/-- `Vec<u8>` payload. -/
def asBytes : Option Item → Option (List Nat)
  | some (.arr xs) => bytesOf xs
  | _ => none

def PairingRequest.fromItem : Item → Option PairingRequest
  | .map kvs => do
    let claim_code ← asText (kvGet kvs (ascii "claim_code"))
    let device_name ← asText (kvGet kvs (ascii "device_name"))
    let device_type ← asText (kvGet kvs (ascii "device_type"))
    let device_os ← asOptText (kvGet kvs (ascii "device_os"))
    some ⟨claim_code, device_name, device_type, device_os⟩
  | _ => none

def ReadMediaRequest.fromItem : Item → Option ReadMediaRequest
  | .map kvs => do
    let file_path ← asText (kvGet kvs (ascii "file_path"))
    let offset ← asUint (kvGet kvs (ascii "offset"))
    let length ← asUintLt 4294967296 (kvGet kvs (ascii "length"))
    some ⟨file_path, offset, length⟩
  | _ => none

def GraphQLRequest.fromItem : Item → Option GraphQLRequest
  | .map kvs => do
    let query ← asText (kvGet kvs (ascii "query"))
    let vars ← asOptText (kvGet kvs (ascii "variables"))
    let operation_name ← asOptText (kvGet kvs (ascii "operation_name"))
    let auth_token ← asOptText (kvGet kvs (ascii "auth_token"))
    some ⟨query, vars, operation_name, auth_token⟩
  | _ => none

def HlsRequest.fromItem : Item → Option HlsRequest
  | .map kvs => do
    let session_id ← asText (kvGet kvs (ascii "session_id"))
    let path ← asText (kvGet kvs (ascii "path"))
    let range_start ← asOptUint (kvGet kvs (ascii "range_start"))
    let range_end ← asOptUint (kvGet kvs (ascii "range_end"))
    let auth_token ← asOptText (kvGet kvs (ascii "auth_token"))
    some ⟨session_id, path, range_start, range_end, auth_token⟩
  | _ => none

def HlsResponseHeader.fromItem : Item → Option HlsResponseHeader
  | .map kvs => do
    let status ← asUintLt 65536 (kvGet kvs (ascii "status"))
    let content_type ← asText (kvGet kvs (ascii "content_type"))
    let content_length ← asUint (kvGet kvs (ascii "content_length"))
    let content_range ← asOptText (kvGet kvs (ascii "content_range"))
    let cache_control ← asOptText (kvGet kvs (ascii "cache_control"))
    some ⟨status, content_type, content_length, content_range, cache_control⟩
  | _ => none

def BlobDownloadRequest.fromItem : Item → Option BlobDownloadRequest
  | .map kvs => do
    let job_id ← asText (kvGet kvs (ascii "job_id"))
    let auth_token ← asOptText (kvGet kvs (ascii "auth_token"))
    some ⟨job_id, auth_token⟩
  | _ => none

def BlobDownloadResponse.fromItem : Item → Option BlobDownloadResponse
  | .map kvs => do
    let success ← asBool (kvGet kvs (ascii "success"))
    let ticket ← asOptText (kvGet kvs (ascii "ticket"))
    let filename ← asOptText (kvGet kvs (ascii "filename"))
    let file_size ← asOptUint (kvGet kvs (ascii "file_size"))
    let error ← asOptText (kvGet kvs (ascii "error"))
    some ⟨success, ticket, filename, file_size, error⟩
  | _ => none

def GraphQLResponse.fromItem : Item → Option GraphQLResponse
  | .map kvs => do
    let dataField ← asOptText (kvGet kvs (ascii "data"))
    let errors ← asOptText (kvGet kvs (ascii "errors"))
    some ⟨dataField, errors⟩
  | _ => none

def PairingResponse.fromItem : Item → Option PairingResponse
  | .map kvs => do
    let success ← asBool (kvGet kvs (ascii "success"))
    let media_token ← asOptText (kvGet kvs (ascii "media_token"))
    let access_token ← asOptText (kvGet kvs (ascii "access_token"))
    let device_token ← asOptText (kvGet kvs (ascii "device_token"))
    let error ← asOptText (kvGet kvs (ascii "error"))
    let direct_urls ← asTextArr (kvGet kvs (ascii "direct_urls"))
    some ⟨success, media_token, access_token, device_token, error, direct_urls⟩
  | _ => none

def MydiaRequest.fromItem : Item → Option MydiaRequest
  | .text s => if s = ascii "Ping" then some .Ping else none
  | .map [(.text k, v)] =>
    if k = ascii "Pairing" then (PairingRequest.fromItem v).map .Pairing
    else if k = ascii "ReadMedia" then (ReadMediaRequest.fromItem v).map .ReadMedia
    else if k = ascii "GraphQL" then (GraphQLRequest.fromItem v).map .GraphQL
    else if k = ascii "HlsStream" then (HlsRequest.fromItem v).map .HlsStream
    else if k = ascii "BlobDownload" then (BlobDownloadRequest.fromItem v).map .BlobDownload
    else if k = ascii "Custom" then (asBytes (some v)).map .Custom
    else none
  | _ => none

def MydiaResponse.fromItem : Item → Option MydiaResponse
  | .text s => if s = ascii "Pong" then some .Pong else none
  | .map [(.text k, v)] =>
    if k = ascii "Pairing" then (PairingResponse.fromItem v).map .Pairing
    else if k = ascii "MediaChunk" then (asBytes (some v)).map .MediaChunk
    else if k = ascii "GraphQL" then (GraphQLResponse.fromItem v).map .GraphQL
    else if k = ascii "HlsHeader" then (HlsResponseHeader.fromItem v).map .HlsHeader
    else if k = ascii "BlobDownload" then (BlobDownloadResponse.fromItem v).map .BlobDownload
    else if k = ascii "Custom" then (asBytes (some v)).map .Custom
    else if k = ascii "Error" then (asText (some v)).map .Error
    else none
  | _ => none

/-! ### Byte-level encode/decode (`serde_cbor::to_vec` / `from_slice`) -/

def encodeRequest (r : MydiaRequest) : List Nat := encItem r.toItem

def decodeRequest (l : List Nat) : Option MydiaRequest :=
  (decodeCbor l).bind MydiaRequest.fromItem

def encodeResponse (r : MydiaResponse) : List Nat := encItem r.toItem

def decodeResponse (l : List Nat) : Option MydiaResponse :=
  (decodeCbor l).bind MydiaResponse.fromItem

/-! ### Machine-integer bounds of the Rust field types -/

def rstrWF (s : RStr) : Bool := s.length < 18446744073709551616

def optRstrWF : Option RStr → Bool
  | none => true
  | some s => rstrWF s

def u64WF (n : Nat) : Bool := n < 18446744073709551616

def optU64WF : Option Nat → Bool
  | none => true
  | some n => u64WF n

def bytesWF (bs : List Nat) : Bool :=
  decide (bs.length < 18446744073709551616) && bs.all (· < 256)

def PairingRequest.wf (r : PairingRequest) : Bool :=
  rstrWF r.claim_code && rstrWF r.device_name && rstrWF r.device_type &&
    optRstrWF r.device_os

def ReadMediaRequest.wf (r : ReadMediaRequest) : Bool :=
  rstrWF r.file_path && u64WF r.offset && decide (r.length < 4294967296)

def GraphQLRequest.wf (r : GraphQLRequest) : Bool :=
  rstrWF r.query && optRstrWF r.«variables» && optRstrWF r.operation_name &&
    optRstrWF r.auth_token

def HlsRequest.wf (r : HlsRequest) : Bool :=
  rstrWF r.session_id && rstrWF r.path && optU64WF r.range_start &&
    optU64WF r.range_end && optRstrWF r.auth_token

def HlsResponseHeader.wf (h : HlsResponseHeader) : Bool :=
  decide (h.status < 65536) && rstrWF h.content_type && u64WF h.content_length &&
    optRstrWF h.content_range && optRstrWF h.cache_control

def BlobDownloadRequest.wf (r : BlobDownloadRequest) : Bool :=
  rstrWF r.job_id && optRstrWF r.auth_token

def BlobDownloadResponse.wf (r : BlobDownloadResponse) : Bool :=
  optRstrWF r.ticket && optRstrWF r.filename && optU64WF r.file_size &&
    optRstrWF r.error

def GraphQLResponse.wf (r : GraphQLResponse) : Bool :=
  optRstrWF r.data && optRstrWF r.errors

def PairingResponse.wf (r : PairingResponse) : Bool :=
  optRstrWF r.media_token && optRstrWF r.access_token &&
    optRstrWF r.device_token && optRstrWF r.error &&
    decide (r.direct_urls.length < 18446744073709551616) &&
    r.direct_urls.all rstrWF

def MydiaRequest.wf : MydiaRequest → Bool
  | .Ping => true
  | .Pairing r => r.wf
  | .ReadMedia r => r.wf
  | .GraphQL r => r.wf
  | .HlsStream r => r.wf
  | .BlobDownload r => r.wf
  | .Custom bs => bytesWF bs

def MydiaResponse.wf : MydiaResponse → Bool
  | .Pong => true
  | .Pairing r => r.wf
  | .MediaChunk bs => bytesWF bs
  | .GraphQL r => r.wf
  | .HlsHeader h => h.wf
  | .BlobDownload r => r.wf
  | .Custom bs => bytesWF bs
  | .Error msg => rstrWF msg

/-! ## HLS server-push framing

`run_event_loop` writes, per live stream: one 4-byte big-endian length
prefix plus the CBOR `HlsHeader` response (SendHlsHeader), then each
chunk with a 4-byte big-endian length prefix (SendHlsChunk), then a
four-byte zero terminator followed by the transport `finish`
(FinishHlsStream). -/

/-- `(len as u32).to_be_bytes()`: the cast truncates to 32 bits. -/
def lenBE4 (n : Nat) : List Nat := beBytes 4 (n % 4294967296)

/-- Bytes `SendHlsHeader` writes: length prefix then encoded header. -/
def hlsHeaderBytes (h : HlsResponseHeader) : List Nat :=
  lenBE4 (encodeResponse (.HlsHeader h)).length ++ encodeResponse (.HlsHeader h)

/-- Bytes `SendHlsChunk` writes: length prefix then the chunk. -/
def hlsChunkBytes (c : List Nat) : List Nat := lenBE4 c.length ++ c

/-- The four-byte zero terminator `FinishHlsStream` writes. -/
def hlsTerminator : List Nat := [0, 0, 0, 0]

/-- Concatenated chunk frames. -/
def hlsChunksBytes : List (List Nat) → List Nat
  | [] => []
  | c :: cs => hlsChunkBytes c ++ hlsChunksBytes cs

/-- All bytes on the send half for the sequence `SendHlsHeader(h)`,
`SendHlsChunk(c)` for each chunk in order, `FinishHlsStream`. -/
def hlsStreamBytes (h : HlsResponseHeader) (chunks : List (List Nat)) : List Nat :=
  hlsHeaderBytes h ++ hlsChunksBytes chunks ++ hlsTerminator

/-- Client-side chunk reader loop of `handle_send_hls_request`: read a
4-byte length, stop on zero (end-of-stream marker), otherwise read that
many bytes and push them into the chunk channel. Returns the chunks
delivered and whether the loop ended on the zero marker (`true`) or on
a short read (`false`); in both cases the channel closes. The fuel only
needs to exceed the number of frames. -/
def readHlsChunks : Nat → List Nat → List (List Nat) × Bool
  | 0, _ => ([], false)
  | fuel + 1, l =>
    match readN 4 l with
    | none => ([], false)
    | some (lb, r) =>
      if fromBE lb = 0 then ([], true)
      else
        match readN (fromBE lb) r with
        | none => ([], false)
        | some (c, r2) =>
          let p := readHlsChunks fuel r2
          (c :: p.1, p.2)

/-- Client side of `handle_send_hls_request` after the request is sent:
read the length-prefixed header frame (rejecting an empty header),
decode it, require the `HlsHeader` variant (`Error` or any other
variant is an error return, collapsed to `none` here), then run the
chunk reader on the remaining bytes. -/
def clientReadHls (l : List Nat) :
    Option (HlsResponseHeader × (List (List Nat) × Bool)) :=
  match readN 4 l with
  | none => none
  | some (lb, r) =>
    if fromBE lb = 0 then none
    else
      match readN (fromBE lb) r with
      | none => none
      | some (hd, r2) =>
        match decodeResponse hd with
        | some (MydiaResponse.HlsHeader h) => some (h, readHlsChunks (r2.length + 1) r2)
        | _ => none

/-! ## Event-loop shared state and command handlers -/

/-- Association-list lookup, modelling `HashMap::get`. -/
def lookup {α : Type} : List (String × α) → String → Option α
  | [], _ => none
  | (k, v) :: rest, key => if k = key then some v else lookup rest key

/-- In-place value update, modelling writes through `HashMap::get_mut`. -/
def setKey {α : Type} : List (String × α) → String → α → List (String × α)
  | [], _, _ => []
  | (k, v) :: rest, key, nv =>
    if k = key then (k, nv) :: rest else (k, v) :: setKey rest key nv

/-- Key removal, modelling `HashMap::remove`. -/
def removeKey {α : Type} : List (String × α) → String → List (String × α)
  | [], _ => []
  | (k, v) :: rest, key => if k = key then rest else (k, v) :: removeKey rest key

/-- Number of entries under a key; a faithful `HashMap` model keeps it
at most 1 for every key. -/
def keyCount {α : Type} : List (String × α) → String → Nat
  | [], _ => 0
  | (k, _) :: rest, key => (if k = key then 1 else 0) + keyCount rest key

/-- The two pending-work tables guarded by the single shared lock,
together with the wire-visible observations the model tracks. A
`pending_responses` entry maps a request id to whether the responder
task still holds the receiving half of the reply slot; an `hls_streams`
entry maps a stream id to the bytes written to its send half so far;
`closedStreams` records, per finished stream, the complete byte
sequence written before the transport `finish`. -/
structure LoopState where
  pending_responses : List (String × Bool)
  hls_streams : List (String × List Nat)
  closedStreams : List (String × List Nat)
deriving DecidableEq

/-- `Command::SendResponse` handling: remove the pending entry and fire
its oneshot; a failed send (receiver already dropped) is ignored. The
command has no reply channel, so the caller never observes an outcome.
Returns the new state and the value delivered to the responder task, if
any. -/
def sendResponseCmd (st : LoopState) (id : String) (resp : MydiaResponse) :
    LoopState × Option MydiaResponse :=
  match lookup st.pending_responses id with
  | none => (st, none)
  | some receiverAlive =>
    ({ st with pending_responses := removeKey st.pending_responses id },
     if receiverAlive then some resp else none)

/-- Outcome of one bare `send.write(&buf)` call: on `Ok` the transport
accepts some count of bytes — a prefix of the buffer, possibly shorter
than it under flow-control backpressure — and the source discards that
count; on `Err` nothing is accepted and the error is reported. -/
inductive WriteOutcome where
  | accepted (n : Nat)
  | failed
deriving DecidableEq

/-- Bytes a bare `send.write(&buf)` call puts on the stream: the
accepted prefix on `Ok`, nothing on `Err`. -/
def writeBare (buf : List Nat) : WriteOutcome → Option (List Nat)
  | .accepted n => some (buf.take n)
  | .failed => none

/-- `Command::SendHlsHeader`: look up the live stream, then one bare
`write` of the 4-byte length prefix and one bare `write` of the encoded
header, replying `Ok` whenever neither write errors — even when a write
accepted only part of its buffer, since the source ignores the accepted
count. An unknown id leaves all state unchanged and replies
`Err("HLS stream not found: <id>")`. -/
def sendHlsHeaderCmd (st : LoopState) (id : String) (h : HlsResponseHeader)
    (w1 w2 : WriteOutcome) : LoopState × Except String Unit :=
  match lookup st.hls_streams id with
  | none => (st, .error ("HLS stream not found: " ++ id))
  | some buf =>
    match writeBare (lenBE4 (encodeResponse (.HlsHeader h)).length) w1 with
    | none => (st, .error "Failed to write header length")
    | some sent1 =>
      match writeBare (encodeResponse (.HlsHeader h)) w2 with
      | none =>
        ({ st with hls_streams := setKey st.hls_streams id (buf ++ sent1) },
         .error "Failed to write header")
      | some sent2 =>
        ({ st with hls_streams := setKey st.hls_streams id (buf ++ sent1 ++ sent2) },
         .ok ())

/-- `Command::SendHlsChunk`: as for the header — bare `write` of the
truncating `data.len() as u32` prefix, then bare `write` of the data,
`Ok` whenever neither write errors, accepted counts discarded. -/
def sendHlsChunkCmd (st : LoopState) (id : String) (data : List Nat)
    (w1 w2 : WriteOutcome) : LoopState × Except String Unit :=
  match lookup st.hls_streams id with
  | none => (st, .error ("HLS stream not found: " ++ id))
  | some buf =>
    match writeBare (lenBE4 data.length) w1 with
    | none => (st, .error "Failed to write chunk length")
    | some sent1 =>
      match writeBare data w2 with
      | none =>
        ({ st with hls_streams := setKey st.hls_streams id (buf ++ sent1) },
         .error "Failed to write chunk")
      | some sent2 =>
        ({ st with hls_streams := setKey st.hls_streams id (buf ++ sent1 ++ sent2) },
         .ok ())

/-- `Command::FinishHlsStream`: the entry is removed from the table
first (`HashMap::remove`), then the four-byte zero terminator is
written with a bare `write` (accepted count discarded) and the stream
finished; on write or finish error the error is returned but the entry
is already gone. On a successful finish the stream's complete byte
sequence is recorded in `closedStreams` (an unfinished stream's bytes
are not observable there). -/
def finishHlsStreamCmd (st : LoopState) (id : String) (w : WriteOutcome)
    (finishOk : Bool) : LoopState × Except String Unit :=
  match lookup st.hls_streams id with
  | none => (st, .error ("HLS stream not found: " ++ id))
  | some buf =>
    let st2 := { st with hls_streams := removeKey st.hls_streams id }
    match writeBare hlsTerminator w with
    | none => (st2, .error "Failed to write terminator")
    | some sent =>
      if finishOk then
        ({ st2 with closedStreams := (id, buf ++ sent) :: st2.closedStreams },
         .ok ())
      else (st2, .error "Failed to finish stream")

/-- The embedder's send sequence for one stream: header, then the
chunks in order, then finish, with every bare `write` accepting its
whole buffer (no backpressure truncation). -/
def runHlsSend (st : LoopState) (id : String) (h : HlsResponseHeader)
    (chunks : List (List Nat)) : LoopState :=
  let st1 := (sendHlsHeaderCmd st id h (.accepted 4)
    (.accepted (encodeResponse (.HlsHeader h)).length)).1
  let st2 := chunks.foldl
    (fun s c => (sendHlsChunkCmd s id c (.accepted 4) (.accepted c.length)).1) st1
  (finishHlsStreamCmd st2 id (.accepted 4) true).1

/-! ## Inbound request lifecycle (non-streaming, non-Ping)

`handle_connection` inserts the reply-slot sender into
`pending_responses` and spawns a task that waits on the receiver under
`tokio::time::timeout(30 s)`; on a value it writes the encoded response
and finishes, on timeout it writes the encoded
`Error("Request timeout")` and finishes. Nothing in the timeout arm
touches `pending_responses`: the entry is removed only when a
`SendResponse` command with this id is processed, whose oneshot send is
then ignored if the receiver is gone. -/

/-- Encoded `Error("Request timeout")` response. -/
def encErrTimeout : List Nat := encodeResponse (.Error (ascii "Request timeout"))

structure ReqOutcome where
  /-- Timestamped writes on the send half, seconds after receipt. -/
  writes : List (Nat × List Nat)
  /-- Whether the send half was finished. -/
  finished : Bool
  /-- Whether `pending_responses` still holds the entry after the whole
  schedule was processed. -/
  tableHasEntry : Bool
deriving DecidableEq

/-- Outcome of one inbound request against a time-ordered schedule of
`SendResponse` commands for its id (times strictly increasing, seconds
since receipt). The first command before the 30-second deadline
completes the reply slot; the responder then writes that response at
that time. Otherwise the timeout fires: the responder writes the
synthetic error at 30 s and drops the receiver. In both cases the first
`SendResponse` processed — at any time — removes the table entry; with
no command the entry stays. -/
def runInboundRequest : List (Nat × MydiaResponse) → ReqOutcome
  | [] => ⟨[(30, encErrTimeout)], true, true⟩
  | (t, resp) :: _ =>
    if t < 30 then ⟨[(t, encodeResponse resp)], true, false⟩
    else ⟨[(30, encErrTimeout)], true, false⟩

/-! ## Outbound target resolution (`handle_send_request`,
`handle_send_hls_request`) -/

/-- The endpoint contact descriptor: node id, direct addresses, relay
URLs. Its JSON text form is opaque; the decoder is a parameter. -/
structure EndpointAddr where
  id : String
  direct_addresses : List String
  relay_urls : List String

/-- `node_id.starts_with` at the opening-brace character (the sniff both
outbound handlers use). -/
def startsWithBrace (s : String) : Bool :=
  match s.data with
  | [] => false
  | c :: _ => c = Char.ofNat 123

/-- Target-argument resolution shared by both outbound handlers: a
string starting with `{` is decoded as an `EndpointAddr` JSON blob and
projected to its node id (falling back to the raw string when the
decode fails); anything else is used as a bare node id. -/
def resolveTargetId (dec : String → Except String EndpointAddr)
    (node_id : String) : String :=
  if startsWithBrace node_id then
    match dec node_id with
    | .ok addr => addr.id
    | .error _ => node_id
  else node_id

/-- Connection-lookup prefix of `handle_send_request`: resolve the
target, look up the live connection, and fail with the `Not connected`
message when absent — in which case no stream is opened. The returned
handle stands for the connection `open_bi` would then run on. -/
def handleSendRequestConn (dec : String → Except String EndpointAddr)
    (connected_peers : List (String × Nat)) (node_id : String) :
    Except String Nat :=
  let actual := resolveTargetId dec node_id
  match lookup connected_peers actual with
  | none => .error ("Not connected to peer: " ++ actual)
  | some conn => .ok conn

/-- Connection-lookup prefix of `handle_send_hls_request` (duplicated
logic in the source). -/
def handleSendHlsRequestConn (dec : String → Except String EndpointAddr)
    (connected_peers : List (String × Nat)) (node_id : String) :
    Except String Nat :=
  let actual := resolveTargetId dec node_id
  match lookup connected_peers actual with
  | none => .error ("Not connected to peer: " ++ actual)
  | some conn => .ok conn

/-! ## Connection registry -/

/-- Registration events that insert into `connected_peers`: an accepted
inbound connection or a successful dial. -/
inductive RegOp where
  | accept (peer : String) (conn : Nat)
  | dial (peer : String) (conn : Nat)

/-- Registry plus the set of connections the event loop has explicitly
closed. The source performs no close at registration: a displaced
handle is only dropped from the map, and its servicing tasks keep
clones of the connection. -/
structure RegState where
  registry : List (String × Nat)
  closed : List Nat
deriving DecidableEq

/-- `HashMap::insert`: replace the value when the key is present,
otherwise add the binding. -/
def insertReplace : List (String × Nat) → String → Nat → List (String × Nat)
  | [], key, c => [(key, c)]
  | (k, v) :: rest, key, c =>
    if k = key then (k, c) :: rest else (k, v) :: insertReplace rest key c

/-- Registration as the source performs it: `connected_peers.insert`
and nothing else — in particular no `close` on a displaced value. -/
def applyRegOp (st : RegState) : RegOp → RegState
  | .accept peer conn => { st with registry := insertReplace st.registry peer conn }
  | .dial peer conn => { st with registry := insertReplace st.registry peer conn }

/-- Run a sequence of accept/dial events from the loop's initial empty
registry. -/
def runRegOps (ops : List RegOp) : RegState := ops.foldl applyRegOp ⟨[], []⟩

/-! ## Path-type monitor (`monitor_connection_type`) -/

inductive PeerConnectionType where
  | Direct
  | Relay
  | Mixed
  | None
deriving DecidableEq

/-- One run of the monitor loop. `current` is the type computed when
the connection was registered; `samples` are the values of
`from_connection` at each 5-second tick, at most 24 of them (the
2-minute window). Each tick: if the sample differs from `current`, emit
`ConnectionTypeChanged`, update `current`, and stop if the new value is
`Direct`. Returns the emissions in order and the number of ticks
consumed. -/
def monitorRun (current : PeerConnectionType) :
    List PeerConnectionType → List PeerConnectionType × Nat
  | [] => ([], 0)
  | s :: rest =>
    if s ≠ current then
      if s = .Direct then ([s], 1)
      else
        let p := monitorRun s rest
        (s :: p.1, p.2 + 1)
    else
      let p := monitorRun current rest
      (p.1, p.2 + 1)

/-! ## Startup event sequence (`run_event_loop` before the select loop) -/

inductive StartEvent where
  | RelayConnected
  | Ready (node_addr : String)
deriving DecidableEq

/-- After a successful bind the loop waits up to 30 s for
`endpoint.online()`; on success it emits `RelayConnected`. In either
case it then reads the endpoint address and emits `Ready`. On bind
failure it terminates without events. -/
def startupEvents (bindOk : Bool) (onlineWithin30s : Bool) (addrJson : String) :
    List StartEvent :=
  if bindOk then
    (if onlineWithin30s then [StartEvent.RelayConnected] else [])
      ++ [StartEvent.Ready addrJson]
  else []

/-- The ordering property claim C8 asserts: every `RelayConnected` in
the emitted sequence is preceded by some `Ready`. -/
def readyPrecedesRelay (events : List StartEvent) : Prop :=
  ∀ pre post, events = pre ++ StartEvent.RelayConnected :: post →
    ∃ a, StartEvent.Ready a ∈ pre

/-! ## Identity store (`load_or_generate_keypair`, `Host::new`) -/

structure KeygenOutcome where
  secret : List Nat
  generated : Bool
  persistAttempted : Bool
  persisted : Bool
deriving DecidableEq

/-- `load_or_generate_keypair`: the filesystem read is the function
`readFile` (`none` = unreadable), fresh randomness is `fresh`, and the
success of the attempted persistence is `writeOk` (a failure is logged
and otherwise ignored). A readable file of exactly 32 bytes is adopted;
anything else falls back to generation, persisted only when a path was
supplied. -/
def load_or_generate_keypair (readFile : String → Option (List Nat))
    (fresh : List Nat) (writeOk : Bool) : Option String → KeygenOutcome
  | some p =>
    match readFile p with
    | some bytes =>
      if bytes.length = 32 then ⟨bytes, false, false, false⟩
      else ⟨fresh, true, true, writeOk⟩
    | none => ⟨fresh, true, true, writeOk⟩
  | none => ⟨fresh, true, false, false⟩

/-- The node id `Host::new` returns: the public key string derived from
the loaded-or-generated secret. `derivePub` abstracts
`SecretKey::public().to_string()`, a pure function of the secret. -/
def hostNodeId (derivePub : List Nat → String)
    (readFile : String → Option (List Nat)) (fresh : List Nat) (writeOk : Bool)
    (path : Option String) : String :=
  derivePub (load_or_generate_keypair readFile fresh writeOk path).secret

/-! ## Theorems -/

theorem beBytes_length (k : Nat) : ∀ n, (beBytes k n).length = k := by
  induction k with
  | zero => intro n; simp [beBytes]
  | succ k ih => intro n; simp [beBytes, ih]

theorem fromBE_beBytes (k : Nat) : ∀ n, n < 256 ^ k → fromBE (beBytes k n) = n := by
  induction k with
  | zero =>
    intro n h
    simp only [pow_zero, Nat.lt_one_iff] at h
    simp [beBytes, fromBE, h]
  | succ k ih =>
    intro n h
    have hpos : 0 < 256 ^ k := Nat.pos_pow_of_pos k (by norm_num)
    have hlt : n % 256 ^ k < 256 ^ k := Nat.mod_lt _ hpos
    have hdiv : n / 256 ^ k < 256 := by
      rw [Nat.div_lt_iff_lt_mul hpos]
      calc n < 256 ^ (k + 1) := h
        _ = 256 * 256 ^ k := by rw [pow_succ]; ring
    simp only [beBytes, fromBE, beBytes_length, ih _ hlt]
    rw [Nat.mod_eq_of_lt hdiv, Nat.div_add_mod' n (256 ^ k)]

theorem readN_append (bs r : List Nat) : readN bs.length (bs ++ r) = some (bs, r) := by
  simp [readN, List.take_left, List.drop_left]

theorem decHead_encHead (maj n : Nat) (hn : n < 18446744073709551616)
    (rest : List Nat) : decHead (encHead maj n ++ rest) = some (maj, n, rest) := by
  unfold encHead
  split_ifs with h1 h2 h3 h4
  · have e1 : (maj * 32 + n) % 32 = n := by omega
    have e2 : (maj * 32 + n) / 32 = maj := by omega
    simp [decHead, e1, e2, h1]
  · have e1 : (maj * 32 + 24) % 32 = 24 := by omega
    have e2 : (maj * 32 + 24) / 32 = maj := by omega
    simp [decHead, e1, e2]
  · have e1 : (maj * 32 + 25) % 32 = 25 := by omega
    have e2 : (maj * 32 + 25) / 32 = maj := by omega
    have hr : readN 2 (beBytes 2 n ++ rest) = some (beBytes 2 n, rest) := by
      have := readN_append (beBytes 2 n) rest
      rwa [beBytes_length] at this
    simp [decHead, e1, e2, hr, fromBE_beBytes 2 n (by norm_num; omega)]
  · have e1 : (maj * 32 + 26) % 32 = 26 := by omega
    have e2 : (maj * 32 + 26) / 32 = maj := by omega
    have hr : readN 4 (beBytes 4 n ++ rest) = some (beBytes 4 n, rest) := by
      have := readN_append (beBytes 4 n) rest
      rwa [beBytes_length] at this
    simp [decHead, e1, e2, hr, fromBE_beBytes 4 n (by norm_num; omega)]
  · have e1 : (maj * 32 + 27) % 32 = 27 := by omega
    have e2 : (maj * 32 + 27) / 32 = maj := by omega
    have hr : readN 8 (beBytes 8 n ++ rest) = some (beBytes 8 n, rest) := by
      have := readN_append (beBytes 8 n) rest
      rwa [beBytes_length] at this
    simp [decHead, e1, e2, hr, fromBE_beBytes 8 n (by norm_num; omega)]

theorem encHead_length_pos (maj n : Nat) : 1 ≤ (encHead maj n).length := by
  unfold encHead
  split_ifs <;> simp

theorem depth_pos : ∀ it : Item, 1 ≤ depth it := by
  intro it
  cases it <;> simp [depth]

mutual

theorem decItem_encItem : ∀ (it : Item), ItemWF it → ∀ (fuel : Nat), depth it ≤ fuel →
    ∀ (rest : List Nat), decItem fuel (encItem it ++ rest) = some (it, rest)
  | it, _, 0, hd, _ => absurd hd (by have := depth_pos it; omega)
  | .uint n, hwf, fuel + 1, _, rest => by
    simp only [ItemWF] at hwf
    simp [encItem, decItem, decHead_encHead 0 n hwf rest]
  | .text s, hwf, fuel + 1, _, rest => by
    simp only [ItemWF] at hwf
    have hr : readN s.length (s ++ rest) = some (s, rest) := readN_append s rest
    simp [encItem, decItem, List.append_assoc,
      decHead_encHead 3 s.length hwf (s ++ rest), hr]
  | .arr xs, hwf, fuel + 1, hd, rest => by
    simp only [ItemWF] at hwf
    obtain ⟨hlen, hxs⟩ := hwf
    have hdepth : depthItems xs ≤ fuel := by simp [depth] at hd; omega
    have hdec := decItems_encItems xs hxs fuel hdepth rest
    simp [encItem, decItem, List.append_assoc,
      decHead_encHead 4 xs.length hlen (encItems xs ++ rest), hdec]
  | .map kvs, hwf, fuel + 1, hd, rest => by
    simp only [ItemWF] at hwf
    obtain ⟨hlen, hkvs⟩ := hwf
    have hdepth : depthKVs kvs ≤ fuel := by simp [depth] at hd; omega
    have hdec := decKVs_encKVs kvs hkvs fuel hdepth rest
    simp [encItem, decItem, List.append_assoc,
      decHead_encHead 5 kvs.length hlen (encKVs kvs ++ rest), hdec]
  | .bool b, _, fuel + 1, _, rest => by
    cases b <;> simp [encItem, decItem, decHead, readN]
  | .null, _, fuel + 1, _, rest => by
    simp [encItem, decItem, decHead, readN]

theorem decItems_encItems : ∀ (xs : List Item), ItemsWF xs → ∀ (fuel : Nat),
    depthItems xs ≤ fuel → ∀ (rest : List Nat),
    decSeq (decItem fuel) xs.length (encItems xs ++ rest) = some (xs, rest)
  | [], _, fuel, _, rest => by simp [encItems, decSeq]
  | x :: xs, hwf, fuel, hd, rest => by
    simp only [ItemsWF] at hwf
    obtain ⟨hx, hxs⟩ := hwf
    simp only [depthItems] at hd
    have h1 : depth x ≤ fuel := le_trans (le_max_left _ _) hd
    have h2 : depthItems xs ≤ fuel := le_trans (le_max_right _ _) hd
    have hdec1 := decItem_encItem x hx fuel h1 (encItems xs ++ rest)
    have hdec2 := decItems_encItems xs hxs fuel h2 rest
    simp [encItems, decSeq, List.append_assoc, hdec1, hdec2]

theorem decKVs_encKVs : ∀ (kvs : List (Item × Item)), KVsWF kvs → ∀ (fuel : Nat),
    depthKVs kvs ≤ fuel → ∀ (rest : List Nat),
    decSeq (decPair (decItem fuel)) kvs.length (encKVs kvs ++ rest) = some (kvs, rest)
  | [], _, fuel, _, rest => by simp [encKVs, decSeq]
  | (k, v) :: kvs, hwf, fuel, hd, rest => by
    simp only [KVsWF] at hwf
    obtain ⟨hk, hv, hkvs⟩ := hwf
    simp only [depthKVs] at hd
    have h1 : depth k ≤ fuel := by omega
    have h2 : depth v ≤ fuel := by omega
    have h3 : depthKVs kvs ≤ fuel := by omega
    have hdec1 := decItem_encItem k hk fuel h1 (encItem v ++ (encKVs kvs ++ rest))
    have hdec2 := decItem_encItem v hv fuel h2 (encKVs kvs ++ rest)
    have hdec3 := decKVs_encKVs kvs hkvs fuel h3 rest
    simp [encKVs, decSeq, decPair, List.append_assoc, hdec1, hdec2, hdec3]

end

mutual

theorem depth_le_encItem : ∀ it : Item, depth it ≤ (encItem it).length
  | .uint n => by
    have := encHead_length_pos 0 n
    simp [encItem, depth]; omega
  | .text s => by
    have := encHead_length_pos 3 s.length
    simp [encItem, depth]; omega
  | .arr xs => by
    have h1 := encHead_length_pos 4 xs.length
    have h2 := depthItems_le_encItems xs
    simp [encItem, depth]; omega
  | .map kvs => by
    have h1 := encHead_length_pos 5 kvs.length
    have h2 := depthKVs_le_encKVs kvs
    simp [encItem, depth]; omega
  | .bool b => by cases b <;> simp [encItem, depth]
  | .null => by simp [encItem, depth]

theorem depthItems_le_encItems : ∀ xs : List Item, depthItems xs ≤ (encItems xs).length
  | [] => by simp [encItems, depthItems]
  | x :: xs => by
    have h1 := depth_le_encItem x
    have h2 := depthItems_le_encItems xs
    simp [encItems, depthItems]; omega

theorem depthKVs_le_encKVs : ∀ kvs : List (Item × Item), depthKVs kvs ≤ (encKVs kvs).length
  | [] => by simp [encKVs, depthKVs]
  | (k, v) :: kvs => by
    have h1 := depth_le_encItem k
    have h2 := depth_le_encItem v
    have h3 := depthKVs_le_encKVs kvs
    simp [encKVs, depthKVs]; omega

end

/-- Whole-input CBOR round-trip: decoding with trailing-byte rejection
recovers any well-formed item from its canonical encoding. -/
theorem decodeCbor_encItem (it : Item) (hwf : ItemWF it) :
    decodeCbor (encItem it) = some it := by
  have hdepth : depth it ≤ (encItem it).length + 1 :=
    le_trans (depth_le_encItem it) (Nat.le_succ _)
  have h := decItem_encItem it hwf ((encItem it).length + 1) hdepth []
  rw [List.append_nil] at h
  simp [decodeCbor, h]

/-! ### Item-level round-trips for the mydia structures -/

theorem bytesOf_map (bs : List Nat) (h : ∀ b ∈ bs, b < 256) :
    bytesOf (bs.map Item.uint) = some bs := by
  induction bs with
  | nil => simp [bytesOf]
  | cons b bs ih =>
    have hb : b < 256 := h b (by simp)
    have ihh := ih (fun x hx => h x (by simp [hx]))
    simp [bytesOf, hb, ihh]

theorem textsOf_map (ls : List RStr) : textsOf (ls.map Item.text) = some ls := by
  induction ls with
  | nil => simp [textsOf]
  | cons s ls ih => simp [textsOf, ih]

theorem pairingRequest_fromItem_toItem (r : PairingRequest) :
    PairingRequest.fromItem r.toItem = some r := by
  obtain ⟨cc, dn, dt, dos⟩ := r
  cases dos <;>
    simp [PairingRequest.fromItem, PairingRequest.toItem, kvGet, ascii,
      asText, asOptText, optText]

theorem readMediaRequest_fromItem_toItem (r : ReadMediaRequest)
    (h : r.length < 4294967296) :
    ReadMediaRequest.fromItem r.toItem = some r := by
  obtain ⟨fp, off, len⟩ := r
  simp only [ReadMediaRequest.length] at h
  simp [ReadMediaRequest.fromItem, ReadMediaRequest.toItem, kvGet, ascii,
    asText, asUint, asUintLt, h]

theorem graphQLRequest_fromItem_toItem (r : GraphQLRequest) :
    GraphQLRequest.fromItem r.toItem = some r := by
  obtain ⟨q, vs, opn, at_⟩ := r
  cases vs <;> cases opn <;> cases at_ <;>
    simp [GraphQLRequest.fromItem, GraphQLRequest.toItem, kvGet, ascii,
      asText, asOptText, optText]

theorem hlsRequest_fromItem_toItem (r : HlsRequest) :
    HlsRequest.fromItem r.toItem = some r := by
  obtain ⟨sid, p, rs, re, at_⟩ := r
  cases rs <;> cases re <;> cases at_ <;>
    simp [HlsRequest.fromItem, HlsRequest.toItem, kvGet, ascii,
      asText, asOptText, asOptUint, optText, optUint]

theorem hlsResponseHeader_fromItem_toItem (h : HlsResponseHeader)
    (hs : h.status < 65536) :
    HlsResponseHeader.fromItem h.toItem = some h := by
  obtain ⟨st, ct, cl, cr, cc⟩ := h
  simp only [HlsResponseHeader.status] at hs
  cases cr <;> cases cc <;>
    simp [HlsResponseHeader.fromItem, HlsResponseHeader.toItem, kvGet, ascii,
      asText, asOptText, asUint, asUintLt, optText, hs]

theorem blobDownloadRequest_fromItem_toItem (r : BlobDownloadRequest) :
    BlobDownloadRequest.fromItem r.toItem = some r := by
  obtain ⟨j, at_⟩ := r
  cases at_ <;>
    simp [BlobDownloadRequest.fromItem, BlobDownloadRequest.toItem, kvGet, ascii,
      asText, asOptText, optText]

theorem blobDownloadResponse_fromItem_toItem (r : BlobDownloadResponse) :
    BlobDownloadResponse.fromItem r.toItem = some r := by
  obtain ⟨su, ti, fn, fs, er⟩ := r
  cases ti <;> cases fn <;> cases fs <;> cases er <;>
    simp [BlobDownloadResponse.fromItem, BlobDownloadResponse.toItem, kvGet, ascii,
      asBool, asOptText, asOptUint, optText, optUint]

theorem graphQLResponse_fromItem_toItem (r : GraphQLResponse) :
    GraphQLResponse.fromItem r.toItem = some r := by
  obtain ⟨d, e⟩ := r
  cases d <;> cases e <;>
    simp [GraphQLResponse.fromItem, GraphQLResponse.toItem, kvGet, ascii,
      asOptText, optText]

theorem pairingResponse_fromItem_toItem (r : PairingResponse) :
    PairingResponse.fromItem r.toItem = some r := by
  obtain ⟨su, mt, ac, dt, er, du⟩ := r
  cases mt <;> cases ac <;> cases dt <;> cases er <;>
    simp [PairingResponse.fromItem, PairingResponse.toItem, kvGet, ascii,
      asBool, asOptText, asTextArr, optText, textsOf_map]

theorem mydiaRequest_fromItem_toItem (r : MydiaRequest) (hwf : r.wf = true) :
    MydiaRequest.fromItem r.toItem = some r := by
  cases r with
  | Ping => simp [MydiaRequest.fromItem, MydiaRequest.toItem]
  | Pairing p =>
    simp [MydiaRequest.fromItem, MydiaRequest.toItem, ascii,
      pairingRequest_fromItem_toItem p]
  | ReadMedia p =>
    simp only [MydiaRequest.wf, ReadMediaRequest.wf, Bool.and_eq_true,
      decide_eq_true_eq] at hwf
    simp [MydiaRequest.fromItem, MydiaRequest.toItem, ascii,
      readMediaRequest_fromItem_toItem p hwf.2]
  | GraphQL p =>
    simp [MydiaRequest.fromItem, MydiaRequest.toItem, ascii,
      graphQLRequest_fromItem_toItem p]
  | HlsStream p =>
    simp [MydiaRequest.fromItem, MydiaRequest.toItem, ascii,
      hlsRequest_fromItem_toItem p]
  | BlobDownload p =>
    simp [MydiaRequest.fromItem, MydiaRequest.toItem, ascii,
      blobDownloadRequest_fromItem_toItem p]
  | Custom bs =>
    simp only [MydiaRequest.wf, bytesWF, Bool.and_eq_true, decide_eq_true_eq,
      List.all_eq_true] at hwf
    have hb : ∀ b ∈ bs, b < 256 := by
      intro b hbmem
      simpa using hwf.2 b hbmem
    simp [MydiaRequest.fromItem, MydiaRequest.toItem, ascii, asBytes,
      bytesOf_map bs hb]

theorem mydiaResponse_fromItem_toItem (r : MydiaResponse) (hwf : r.wf = true) :
    MydiaResponse.fromItem r.toItem = some r := by
  cases r with
  | Pong => simp [MydiaResponse.fromItem, MydiaResponse.toItem]
  | Pairing p =>
    simp [MydiaResponse.fromItem, MydiaResponse.toItem, ascii,
      pairingResponse_fromItem_toItem p]
  | MediaChunk bs =>
    simp only [MydiaResponse.wf, bytesWF, Bool.and_eq_true, decide_eq_true_eq,
      List.all_eq_true] at hwf
    have hb : ∀ b ∈ bs, b < 256 := by
      intro b hbmem
      simpa using hwf.2 b hbmem
    simp [MydiaResponse.fromItem, MydiaResponse.toItem, ascii, asBytes,
      bytesOf_map bs hb]
  | GraphQL p =>
    simp [MydiaResponse.fromItem, MydiaResponse.toItem, ascii,
      graphQLResponse_fromItem_toItem p]
  | HlsHeader h =>
    simp only [MydiaResponse.wf, HlsResponseHeader.wf, Bool.and_eq_true,
      decide_eq_true_eq] at hwf
    simp [MydiaResponse.fromItem, MydiaResponse.toItem, ascii,
      hlsResponseHeader_fromItem_toItem h hwf.1.1.1.1]
  | BlobDownload p =>
    simp [MydiaResponse.fromItem, MydiaResponse.toItem, ascii,
      blobDownloadResponse_fromItem_toItem p]
  | Custom bs =>
    simp only [MydiaResponse.wf, bytesWF, Bool.and_eq_true, decide_eq_true_eq,
      List.all_eq_true] at hwf
    have hb : ∀ b ∈ bs, b < 256 := by
      intro b hbmem
      simpa using hwf.2 b hbmem
    simp [MydiaResponse.fromItem, MydiaResponse.toItem, ascii, asBytes,
      bytesOf_map bs hb]
  | Error msg =>
    simp [MydiaResponse.fromItem, MydiaResponse.toItem, ascii, asText]

/-! ### Well-formedness of encoder images -/

theorem itemsWF_map_uint (bs : List Nat) (h : ∀ b ∈ bs, b < 256) :
    ItemsWF (bs.map Item.uint) := by
  induction bs with
  | nil => simp [ItemsWF]
  | cons b bs ih =>
    refine ⟨?_, ih (fun x hx => h x (by simp [hx]))⟩
    have := h b (by simp)
    simp [ItemWF]
    omega

theorem itemsWF_map_text (ls : List RStr)
    (h : ∀ s ∈ ls, s.length < 18446744073709551616) :
    ItemsWF (ls.map Item.text) := by
  induction ls with
  | nil => simp [ItemsWF]
  | cons s ls ih =>
    refine ⟨?_, ih (fun x hx => h x (by simp [hx]))⟩
    simpa [ItemWF] using h s (by simp)

theorem optText_wf (x : Option RStr) (h : optRstrWF x = true) : ItemWF (optText x) := by
  cases x with
  | none => simp [optText, ItemWF]
  | some s =>
    simp only [optRstrWF, rstrWF, decide_eq_true_eq] at h
    simpa [optText, ItemWF] using h

theorem optUint_wf (x : Option Nat) (h : optU64WF x = true) : ItemWF (optUint x) := by
  cases x with
  | none => simp [optUint, ItemWF]
  | some n =>
    simp only [optU64WF, u64WF, decide_eq_true_eq] at h
    simpa [optUint, ItemWF] using h

theorem pairingRequest_toItem_wf (r : PairingRequest) (h : r.wf = true) :
    ItemWF r.toItem := by
  obtain ⟨cc, dn, dt, dos⟩ := r
  simp only [PairingRequest.wf, rstrWF, optRstrWF, Bool.and_eq_true,
    decide_eq_true_eq] at h
  obtain ⟨⟨⟨h1, h2⟩, h3⟩, h4⟩ := h
  refine ⟨by norm_num, ?_⟩
  simp [KVsWF, ItemWF, ascii, h1, h2, h3]
  exact optText_wf _ h4

theorem readMediaRequest_toItem_wf (r : ReadMediaRequest) (h : r.wf = true) :
    ItemWF r.toItem := by
  obtain ⟨fp, off, len⟩ := r
  simp only [ReadMediaRequest.wf, rstrWF, u64WF, Bool.and_eq_true,
    decide_eq_true_eq] at h
  obtain ⟨⟨h1, h2⟩, h3⟩ := h
  refine ⟨by norm_num, ?_⟩
  simp [KVsWF, ItemWF, ascii, h1, h2]
  omega

theorem graphQLRequest_toItem_wf (r : GraphQLRequest) (h : r.wf = true) :
    ItemWF r.toItem := by
  obtain ⟨q, vs, opn, at_⟩ := r
  simp only [GraphQLRequest.wf, rstrWF, Bool.and_eq_true, decide_eq_true_eq] at h
  obtain ⟨⟨⟨h1, h2⟩, h3⟩, h4⟩ := h
  refine ⟨by norm_num, ?_⟩
  simp [KVsWF, ItemWF, ascii, h1]
  exact ⟨optText_wf _ h2, optText_wf _ h3, optText_wf _ h4⟩

theorem hlsRequest_toItem_wf (r : HlsRequest) (h : r.wf = true) :
    ItemWF r.toItem := by
  obtain ⟨sid, p, rs, re, at_⟩ := r
  simp only [HlsRequest.wf, rstrWF, Bool.and_eq_true, decide_eq_true_eq] at h
  obtain ⟨⟨⟨⟨h1, h2⟩, h3⟩, h4⟩, h5⟩ := h
  refine ⟨by norm_num, ?_⟩
  simp [KVsWF, ItemWF, ascii, h1, h2]
  exact ⟨optUint_wf _ h3, optUint_wf _ h4, optText_wf _ h5⟩

theorem hlsResponseHeader_toItem_wf (hh : HlsResponseHeader) (h : hh.wf = true) :
    ItemWF hh.toItem := by
  obtain ⟨st, ct, cl, cr, cc⟩ := hh
  simp only [HlsResponseHeader.wf, rstrWF, u64WF, Bool.and_eq_true,
    decide_eq_true_eq] at h
  obtain ⟨⟨⟨⟨h1, h2⟩, h3⟩, h4⟩, h5⟩ := h
  refine ⟨by norm_num, ?_⟩
  simp [KVsWF, ItemWF, ascii, h2, h3]
  refine ⟨by omega, optText_wf _ h4, optText_wf _ h5⟩

theorem blobDownloadRequest_toItem_wf (r : BlobDownloadRequest) (h : r.wf = true) :
    ItemWF r.toItem := by
  obtain ⟨j, at_⟩ := r
  simp only [BlobDownloadRequest.wf, rstrWF, Bool.and_eq_true,
    decide_eq_true_eq] at h
  refine ⟨by norm_num, ?_⟩
  simp [KVsWF, ItemWF, ascii, h.1]
  exact optText_wf _ h.2

theorem blobDownloadResponse_toItem_wf (r : BlobDownloadResponse) (h : r.wf = true) :
    ItemWF r.toItem := by
  obtain ⟨su, ti, fn, fs, er⟩ := r
  simp only [BlobDownloadResponse.wf, Bool.and_eq_true] at h
  obtain ⟨⟨⟨h1, h2⟩, h3⟩, h4⟩ := h
  refine ⟨by norm_num, ?_⟩
  simp [KVsWF, ItemWF, ascii]
  exact ⟨optText_wf _ h1, optText_wf _ h2, optUint_wf _ h3, optText_wf _ h4⟩

theorem graphQLResponse_toItem_wf (r : GraphQLResponse) (h : r.wf = true) :
    ItemWF r.toItem := by
  obtain ⟨d, e⟩ := r
  simp only [GraphQLResponse.wf, Bool.and_eq_true] at h
  refine ⟨by norm_num, ?_⟩
  simp [KVsWF, ItemWF, ascii]
  exact ⟨optText_wf _ h.1, optText_wf _ h.2⟩

theorem pairingResponse_toItem_wf (r : PairingResponse) (h : r.wf = true) :
    ItemWF r.toItem := by
  obtain ⟨su, mt, ac, dt, er, du⟩ := r
  simp only [PairingResponse.wf, Bool.and_eq_true, decide_eq_true_eq,
    List.all_eq_true] at h
  obtain ⟨⟨⟨⟨⟨h1, h2⟩, h3⟩, h4⟩, h5⟩, h6⟩ := h
  refine ⟨by norm_num, ?_⟩
  simp [KVsWF, ItemWF, ascii]
  refine ⟨optText_wf _ h1, optText_wf _ h2, optText_wf _ h3, optText_wf _ h4,
    h5, itemsWF_map_text du ?_⟩
  intro s hs
  have := h6 s hs
  simpa [rstrWF] using this

theorem mydiaRequest_toItem_wf (r : MydiaRequest) (h : r.wf = true) :
    ItemWF r.toItem := by
  cases r with
  | Ping => simp [MydiaRequest.toItem, ItemWF, ascii]
  | Pairing p =>
    have hp := pairingRequest_toItem_wf p (by simpa [MydiaRequest.wf] using h)
    refine ⟨by norm_num, ?_, hp, trivial⟩
    simp [ItemWF, ascii]
  | ReadMedia p =>
    have hp := readMediaRequest_toItem_wf p (by simpa [MydiaRequest.wf] using h)
    refine ⟨by norm_num, ?_, hp, trivial⟩
    simp [ItemWF, ascii]
  | GraphQL p =>
    have hp := graphQLRequest_toItem_wf p (by simpa [MydiaRequest.wf] using h)
    refine ⟨by norm_num, ?_, hp, trivial⟩
    simp [ItemWF, ascii]
  | HlsStream p =>
    have hp := hlsRequest_toItem_wf p (by simpa [MydiaRequest.wf] using h)
    refine ⟨by norm_num, ?_, hp, trivial⟩
    simp [ItemWF, ascii]
  | BlobDownload p =>
    have hp := blobDownloadRequest_toItem_wf p (by simpa [MydiaRequest.wf] using h)
    refine ⟨by norm_num, ?_, hp, trivial⟩
    simp [ItemWF, ascii]
  | Custom bs =>
    simp only [MydiaRequest.wf, bytesWF, Bool.and_eq_true, decide_eq_true_eq,
      List.all_eq_true] at h
    have hb : ∀ b ∈ bs, b < 256 := fun b hbm => by simpa using h.2 b hbm
    simp [MydiaRequest.toItem, ItemWF, KVsWF, ascii]
    exact ⟨h.1, itemsWF_map_uint bs hb⟩

theorem mydiaResponse_toItem_wf (r : MydiaResponse) (h : r.wf = true) :
    ItemWF r.toItem := by
  cases r with
  | Pong => simp [MydiaResponse.toItem, ItemWF, ascii]
  | Pairing p =>
    have hp := pairingResponse_toItem_wf p (by simpa [MydiaResponse.wf] using h)
    refine ⟨by norm_num, ?_, hp, trivial⟩
    simp [ItemWF, ascii]
  | MediaChunk bs =>
    simp only [MydiaResponse.wf, bytesWF, Bool.and_eq_true, decide_eq_true_eq,
      List.all_eq_true] at h
    have hb : ∀ b ∈ bs, b < 256 := fun b hbm => by simpa using h.2 b hbm
    simp [MydiaResponse.toItem, ItemWF, KVsWF, ascii]
    exact ⟨h.1, itemsWF_map_uint bs hb⟩
  | GraphQL p =>
    have hp := graphQLResponse_toItem_wf p (by simpa [MydiaResponse.wf] using h)
    refine ⟨by norm_num, ?_, hp, trivial⟩
    simp [ItemWF, ascii]
  | HlsHeader hh =>
    have hp := hlsResponseHeader_toItem_wf hh (by simpa [MydiaResponse.wf] using h)
    refine ⟨by norm_num, ?_, hp, trivial⟩
    simp [ItemWF, ascii]
  | BlobDownload p =>
    have hp := blobDownloadResponse_toItem_wf p (by simpa [MydiaResponse.wf] using h)
    refine ⟨by norm_num, ?_, hp, trivial⟩
    simp [ItemWF, ascii]
  | Custom bs =>
    simp only [MydiaResponse.wf, bytesWF, Bool.and_eq_true, decide_eq_true_eq,
      List.all_eq_true] at h
    have hb : ∀ b ∈ bs, b < 256 := fun b hbm => by simpa using h.2 b hbm
    simp [MydiaResponse.toItem, ItemWF, KVsWF, ascii]
    exact ⟨h.1, itemsWF_map_uint bs hb⟩
  | Error msg =>
    simp only [MydiaResponse.wf, rstrWF, decide_eq_true_eq] at h
    simp [MydiaResponse.toItem, ItemWF, KVsWF, ascii, h]

/-- Byte-level request round-trip. -/
theorem decodeRequest_encodeRequest (r : MydiaRequest) (h : r.wf = true) :
    decodeRequest (encodeRequest r) = some r := by
  simp [decodeRequest, encodeRequest,
    decodeCbor_encItem r.toItem (mydiaRequest_toItem_wf r h),
    mydiaRequest_fromItem_toItem r h]

/-- Byte-level response round-trip. -/
theorem decodeResponse_encodeResponse (r : MydiaResponse) (h : r.wf = true) :
    decodeResponse (encodeResponse r) = some r := by
  simp [decodeResponse, encodeResponse,
    decodeCbor_encItem r.toItem (mydiaResponse_toItem_wf r h),
    mydiaResponse_fromItem_toItem r h]

/-- **C1.** For every request variant (`Ping`, `Pairing`, `ReadMedia`,
`GraphQL`, `HlsStream`, `BlobDownload`, `Custom`) and every response
variant (`Pong`, `Pairing`, `MediaChunk`, `GraphQL`, `HlsHeader`,
`BlobDownload`, `Custom`, `Error`), for every value of that variant
(within the machine-integer bounds of the Rust field types), decoding
the CBOR encoding of the value yields a value equal to the original. -/
theorem c1_request_response_cbor_roundtrip :
    (∀ r : MydiaRequest, r.wf = true → decodeRequest (encodeRequest r) = some r) ∧
    (∀ p : MydiaResponse, p.wf = true → decodeResponse (encodeResponse p) = some p) :=
  ⟨decodeRequest_encodeRequest, decodeResponse_encodeResponse⟩

/-! ### HLS framing round-trip (C2) -/

theorem lenBE4_length (n : Nat) : (lenBE4 n).length = 4 := by
  simp [lenBE4, beBytes_length]

theorem readN_lenBE4 (n : Nat) (rest : List Nat) :
    readN 4 (lenBE4 n ++ rest) = some (lenBE4 n, rest) := by
  have := readN_append (lenBE4 n) rest
  rwa [lenBE4_length] at this

theorem fromBE_lenBE4 (n : Nat) (h : n < 4294967296) : fromBE (lenBE4 n) = n := by
  rw [lenBE4, Nat.mod_eq_of_lt h]
  refine fromBE_beBytes 4 n ?_
  norm_num
  omega

theorem encItem_length_pos (it : Item) : 1 ≤ (encItem it).length := by
  cases it with
  | uint n => simpa [encItem] using encHead_length_pos 0 n
  | text s =>
    have := encHead_length_pos 3 s.length
    simp [encItem]
    omega
  | arr xs =>
    have := encHead_length_pos 4 xs.length
    simp [encItem]
    omega
  | map kvs =>
    have := encHead_length_pos 5 kvs.length
    simp [encItem]
    omega
  | bool b => cases b <;> simp [encItem]
  | null => simp [encItem]

theorem readHlsChunks_frames (chunks : List (List Nat))
    (hc : ∀ c ∈ chunks, c ≠ [] ∧ c.length < 4294967296) :
    ∀ fuel, chunks.length < fuel →
    readHlsChunks fuel (hlsChunksBytes chunks ++ hlsTerminator) = (chunks, true) := by
  induction chunks with
  | nil =>
    intro fuel hf
    match fuel, hf with
    | f + 1, _ =>
      simp [hlsChunksBytes, hlsTerminator, readHlsChunks, readN, fromBE]
  | cons c cs ih =>
    intro fuel hf
    match fuel, hf with
    | f + 1, hf =>
      have hcc := hc c (by simp)
      have hlen0 : c.length ≠ 0 := by
        cases c with
        | nil => exact absurd rfl hcc.1
        | cons a as => simp
      have h1 := readN_lenBE4 c.length (c ++ (hlsChunksBytes cs ++ hlsTerminator))
      have h2 : fromBE (lenBE4 c.length) = c.length := fromBE_lenBE4 _ hcc.2
      have h3 : readN c.length (c ++ (hlsChunksBytes cs ++ hlsTerminator)) =
          some (c, hlsChunksBytes cs ++ hlsTerminator) := readN_append c _
      have hcs : cs.length < f := by
        have := hf
        simp [List.length_cons] at this
        omega
      have ihh := ih (fun x hx => hc x (by simp [hx])) f hcs
      simp [hlsChunksBytes, hlsChunkBytes, readHlsChunks, List.append_assoc,
        h1, h2, h3, hlen0, ihh]

theorem length_le_hlsChunksBytes (chunks : List (List Nat)) :
    chunks.length ≤ (hlsChunksBytes chunks).length := by
  induction chunks with
  | nil => simp [hlsChunksBytes]
  | cons c cs ih =>
    simp [hlsChunksBytes, hlsChunkBytes, lenBE4_length]
    omega

/-- The client of `handle_send_hls_request` recovers the header and
exactly the chunk sequence, ending on the zero marker, from the bytes
the send side produces — provided every chunk is non-empty (a zero
length is read as end-of-stream) and shorter than 2^32 (the length
prefix is a truncating `u32` cast). -/
theorem clientReadHls_hlsStreamBytes (h : HlsResponseHeader)
    (chunks : List (List Nat))
    (hwf : (MydiaResponse.HlsHeader h).wf = true)
    (hhlen : (encodeResponse (.HlsHeader h)).length < 4294967296)
    (hc : ∀ c ∈ chunks, c ≠ [] ∧ c.length < 4294967296) :
    clientReadHls (hlsStreamBytes h chunks) = some (h, (chunks, true)) := by
  have henc : decodeResponse (encodeResponse (MydiaResponse.HlsHeader h)) =
      some (MydiaResponse.HlsHeader h) := decodeResponse_encodeResponse _ hwf
  have hpos : (encodeResponse (MydiaResponse.HlsHeader h)).length ≠ 0 := by
    have h1p : 1 ≤ (encodeResponse (MydiaResponse.HlsHeader h)).length :=
      encItem_length_pos (MydiaResponse.HlsHeader h).toItem
    omega
  have h1 := readN_lenBE4 (encodeResponse (MydiaResponse.HlsHeader h)).length
    (encodeResponse (MydiaResponse.HlsHeader h) ++
      (hlsChunksBytes chunks ++ hlsTerminator))
  have h2 := fromBE_lenBE4 (encodeResponse (MydiaResponse.HlsHeader h)).length hhlen
  have h3 := readN_append (encodeResponse (MydiaResponse.HlsHeader h))
    (hlsChunksBytes chunks ++ hlsTerminator)
  have hfuel : chunks.length < (hlsChunksBytes chunks ++ hlsTerminator).length + 1 := by
    have := length_le_hlsChunksBytes chunks
    simp [hlsTerminator]
    omega
  have hread := readHlsChunks_frames chunks hc _ hfuel
  simp only [List.length_append] at hread
  simp [clientReadHls, hlsStreamBytes, hlsHeaderBytes, List.append_assoc,
    h1, h2, h3, hpos, henc, hread]

theorem lookup_setKey_self {α : Type} (m : List (String × α)) (k : String) (v : α)
    (h : (lookup m k).isSome) : lookup (setKey m k v) k = some v := by
  induction m with
  | nil => simp [lookup] at h
  | cons p rest ih =>
    obtain ⟨pk, pv⟩ := p
    by_cases hk : pk = k
    · subst hk
      simp [lookup, setKey]
    · simp [lookup, setKey, hk] at h ⊢
      exact ih (by simpa [lookup, hk] using h)

theorem writeBare_full (buf : List Nat) :
    writeBare buf (.accepted buf.length) = some buf := by
  simp [writeBare]

theorem lenBE4_take_4 (n : Nat) : (lenBE4 n).take 4 = lenBE4 n := by
  rw [show (4 : Nat) = (lenBE4 n).length from (lenBE4_length n).symm,
    List.take_length]

theorem writeBare_lenBE4_4 (n : Nat) :
    writeBare (lenBE4 n) (.accepted 4) = some (lenBE4 n) := by
  simp [writeBare, lenBE4_take_4]

theorem sendChunks_fold (id : String) (chunks : List (List Nat)) :
    ∀ (st : LoopState) (buf : List Nat), lookup st.hls_streams id = some buf →
    lookup (chunks.foldl
        (fun s c => (sendHlsChunkCmd s id c (.accepted 4) (.accepted c.length)).1)
        st).hls_streams id =
      some (buf ++ hlsChunksBytes chunks) ∧
    (chunks.foldl
        (fun s c => (sendHlsChunkCmd s id c (.accepted 4) (.accepted c.length)).1)
        st).pending_responses = st.pending_responses ∧
    (chunks.foldl
        (fun s c => (sendHlsChunkCmd s id c (.accepted 4) (.accepted c.length)).1)
        st).closedStreams = st.closedStreams := by
  induction chunks with
  | nil =>
    intro st buf hl
    simpa [hlsChunksBytes] using hl
  | cons c cs ih =>
    intro st buf hl
    have hstep : (sendHlsChunkCmd st id c (.accepted 4) (.accepted c.length)).1 =
        { st with hls_streams := setKey st.hls_streams id (buf ++ hlsChunkBytes c) } := by
      simp [sendHlsChunkCmd, hl, writeBare_lenBE4_4, writeBare_full, hlsChunkBytes,
        List.append_assoc]
    have hl2 : lookup (setKey st.hls_streams id (buf ++ hlsChunkBytes c)) id =
        some (buf ++ hlsChunkBytes c) :=
      lookup_setKey_self _ _ _ (by simp [hl])
    have ihh := ih { st with
        hls_streams := setKey st.hls_streams id (buf ++ hlsChunkBytes c) } _ hl2
    simpa [hstep, hlsChunksBytes, List.append_assoc] using ihh

/-- **C2 (amended).** Sending `SendHlsHeader(h)`, `SendHlsChunk(c1)…(cn)`,
`FinishHlsStream` on a live stream writes exactly one length-prefixed
encoded `HlsHeader`, then each chunk length-prefixed, then the four-byte
zero terminator before the transport finish; and the client reader
delivers exactly `c1…cn` followed by a clean close — provided every
chunk is non-empty and shorter than 2^32 bytes (an empty chunk's frame
is read as the terminator, and chunk lengths are truncated to `u32`),
the encoded header is shorter than 2^32 bytes, and every bare
`send.write` accepts its whole buffer (`run_event_loop` discards the
accepted-byte count, so a partial acceptance under backpressure would
leave a truncated frame while the command still replies `Ok`; see
`sendHlsChunkCmd_partial_accept_ok`). -/
theorem c2_hls_stream_framing (st : LoopState) (id : String)
    (h : HlsResponseHeader) (chunks : List (List Nat))
    (hfresh : lookup st.hls_streams id = some [])
    (hwf : (MydiaResponse.HlsHeader h).wf = true)
    (hhlen : (encodeResponse (.HlsHeader h)).length < 4294967296)
    (hc : ∀ c ∈ chunks, c ≠ [] ∧ c.length < 4294967296) :
    (runHlsSend st id h chunks).closedStreams =
      (id, hlsStreamBytes h chunks) :: st.closedStreams ∧
    clientReadHls (hlsStreamBytes h chunks) = some (h, (chunks, true)) := by
  refine ⟨?_, clientReadHls_hlsStreamBytes h chunks hwf hhlen hc⟩
  have hstep1 : (sendHlsHeaderCmd st id h (.accepted 4)
      (.accepted (encodeResponse (.HlsHeader h)).length)).1 =
      { st with hls_streams := setKey st.hls_streams id (hlsHeaderBytes h) } := by
    simp [sendHlsHeaderCmd, hfresh, writeBare_lenBE4_4, writeBare_full,
      hlsHeaderBytes]
  have hl1 : lookup (setKey st.hls_streams id (hlsHeaderBytes h)) id =
      some (hlsHeaderBytes h) :=
    lookup_setKey_self _ _ _ (by simp [hfresh])
  obtain ⟨hl2, hpend, hclosed⟩ := sendChunks_fold id chunks
    { st with hls_streams := setKey st.hls_streams id (hlsHeaderBytes h) } _ hl1
  unfold runHlsSend
  rw [hstep1]
  simp [finishHlsStreamCmd, writeBare, hlsTerminator, hl2, hclosed,
    hlsStreamBytes, List.append_assoc]

/-- The bare-`write` hazard the C2 proviso excludes: when the transport
accepts only `k` bytes of a chunk, the source still replies `Ok` (the
accepted count of `send.write` is discarded), leaving a truncated frame
on the stream. -/
theorem sendHlsChunkCmd_partial_accept_ok (st : LoopState) (id : String)
    (c buf : List Nat) (k : Nat) (hl : lookup st.hls_streams id = some buf) :
    (sendHlsChunkCmd st id c (.accepted 4) (.accepted k)).2 = .ok () ∧
    (sendHlsChunkCmd st id c (.accepted 4) (.accepted k)).1.hls_streams =
      setKey st.hls_streams id (buf ++ lenBE4 c.length ++ c.take k) := by
  constructor <;> simp [sendHlsChunkCmd, hl, writeBare, lenBE4_take_4]

/-- **C2 counterexample.** The claim quantifies over every finite chunk
sequence, but a single empty chunk is delivered as no chunk at all: its
zero-length frame is read as the end-of-stream marker by the client. -/
theorem c2_counterexample :
    clientReadHls (hlsStreamBytes ⟨200, ascii "video/mp2t", 10, none, none⟩ [[]]) =
      some (⟨200, ascii "video/mp2t", 10, none, none⟩, ([], true)) ∧
    ¬ (clientReadHls (hlsStreamBytes ⟨200, ascii "video/mp2t", 10, none, none⟩ [[]]) =
      some (⟨200, ascii "video/mp2t", 10, none, none⟩, ([[]], true))) := by
  decide

/-- Concrete instantiation of the amended C2 at a two-chunk stream. -/
theorem c2_hls_stream_framing_witness :
    (runHlsSend ⟨[], [("s", [])], []⟩ "s"
        ⟨200, ascii "video/mp2t", 10, none, none⟩ [[97, 98, 99], [100]]).closedStreams =
      [("s", hlsStreamBytes ⟨200, ascii "video/mp2t", 10, none, none⟩
        [[97, 98, 99], [100]])] ∧
    clientReadHls (hlsStreamBytes ⟨200, ascii "video/mp2t", 10, none, none⟩
        [[97, 98, 99], [100]]) =
      some (⟨200, ascii "video/mp2t", 10, none, none⟩, ([[97, 98, 99], [100]], true)) :=
  c2_hls_stream_framing ⟨[], [("s", [])], []⟩ "s" _ _ (by decide) (by decide)
    (by decide) (by decide)

/-! ### Inbound request timeout (C3) -/

/-- **C3 counterexample.** The claim says the pending-response table
entry is consumed by the timeout. It is not: the timeout arm of the
responder task never touches `pending_responses`; with no `SendResponse`
ever issued, the entry is still in the table after the timeout wrote the
error. -/
theorem c3_counterexample :
    ¬ ((runInboundRequest []).writes = [(30, encErrTimeout)] ∧
       (runInboundRequest []).finished = true ∧
       (runInboundRequest []).tableHasEntry = false) := by
  intro hcl
  simpa [runInboundRequest] using hcl.2.2

/-- **C3 (amended).** For an inbound non-streaming, non-Ping request
never completed by the embedder (no `SendResponse` before the deadline),
the loop writes the synthetic `Error("Request timeout")` response
exactly once, 30 seconds after receipt, and finishes the stream. The
timeout drops the receiving half of the reply slot but leaves the table
entry in place; the entry is removed only by a later `SendResponse`
with the same id, whose delivery then fails, so nothing more reaches the
peer. -/
theorem c3_timeout_error_once (schedule : List (Nat × MydiaResponse))
    (hnever : ∀ p ∈ schedule, 30 ≤ p.1) :
    (runInboundRequest schedule).writes = [(30, encErrTimeout)] ∧
    (runInboundRequest schedule).finished = true ∧
    (runInboundRequest schedule).tableHasEntry = schedule.isEmpty := by
  cases schedule with
  | nil => exact ⟨rfl, rfl, rfl⟩
  | cons p rest =>
    obtain ⟨t, resp⟩ := p
    have ht : ¬ t < 30 := by
      have := hnever (t, resp) (by simp)
      omega
    simp [runInboundRequest, ht]

/-- Concrete instantiation of the amended C3: one `SendResponse` arrives
at 40 s, after the timeout. -/
theorem c3_timeout_error_once_witness :
    (runInboundRequest [(40, MydiaResponse.Pong)]).writes = [(30, encErrTimeout)] ∧
    (runInboundRequest [(40, MydiaResponse.Pong)]).finished = true ∧
    (runInboundRequest [(40, MydiaResponse.Pong)]).tableHasEntry =
      [(40, MydiaResponse.Pong)].isEmpty :=
  c3_timeout_error_once [(40, MydiaResponse.Pong)] (by decide)

/-! ### Unknown ids (C4) -/

/-- **C4 counterexample.** `SendHlsHeader` with an unknown stream id is
not silent: the caller receives `Err("HLS stream not found: <id>")`. -/
theorem c4_counterexample :
    (sendHlsHeaderCmd ⟨[], [], []⟩ "x" ⟨200, [], 0, none, none⟩
        (.accepted 4) (.accepted 4)).2 =
      Except.error "HLS stream not found: x" ∧
    ¬ ((sendHlsHeaderCmd ⟨[], [], []⟩ "x" ⟨200, [], 0, none, none⟩
        (.accepted 4) (.accepted 4)).2 =
      Except.ok ()) := by
  constructor
  · rfl
  · intro hcl
    simp [sendHlsHeaderCmd, lookup] at hcl

/-- **C4 (amended).** For a request id unknown to the pending-response
table, `SendResponse` is a silent no-op (no state change, no reply
channel). For a stream id unknown to the HLS-stream table,
`SendHlsHeader`, `SendHlsChunk` and `FinishHlsStream` change no state
but reply with the error string `"HLS stream not found: <id>"`, which
the façade surfaces to the caller. -/
theorem c4_unknown_ids (st : LoopState) (id : String) (resp : MydiaResponse)
    (h : HlsResponseHeader) (data : List Nat) (w1 w2 : WriteOutcome) (f : Bool)
    (hpr : lookup st.pending_responses id = none)
    (hhs : lookup st.hls_streams id = none) :
    sendResponseCmd st id resp = (st, none) ∧
    sendHlsHeaderCmd st id h w1 w2 = (st, .error ("HLS stream not found: " ++ id)) ∧
    sendHlsChunkCmd st id data w1 w2 = (st, .error ("HLS stream not found: " ++ id)) ∧
    finishHlsStreamCmd st id w1 f = (st, .error ("HLS stream not found: " ++ id)) := by
  refine ⟨?_, ?_, ?_, ?_⟩ <;>
    simp [sendResponseCmd, sendHlsHeaderCmd, sendHlsChunkCmd, finishHlsStreamCmd,
      hpr, hhs]

/-- Concrete instantiation of the amended C4 on the empty state. -/
theorem c4_unknown_ids_witness :
    sendResponseCmd ⟨[], [], []⟩ "x" MydiaResponse.Pong = (⟨[], [], []⟩, none) ∧
    sendHlsHeaderCmd ⟨[], [], []⟩ "x" ⟨200, [], 0, none, none⟩
        (.accepted 4) (.accepted 4) =
      (⟨[], [], []⟩, .error "HLS stream not found: x") ∧
    sendHlsChunkCmd ⟨[], [], []⟩ "x" [1] (.accepted 4) (.accepted 4) =
      (⟨[], [], []⟩, .error "HLS stream not found: x") ∧
    finishHlsStreamCmd ⟨[], [], []⟩ "x" (.accepted 4) true =
      (⟨[], [], []⟩, .error "HLS stream not found: x") :=
  c4_unknown_ids ⟨[], [], []⟩ "x" MydiaResponse.Pong ⟨200, [], 0, none, none⟩
    [1] (.accepted 4) (.accepted 4) true rfl rfl

/-! ### Outbound target resolution (C5) -/

/-- **C5.** A target starting with `{` is decoded as an address blob and
projected to its node id; any other target is used as a bare node id;
and when the resolved id has no connection in the registry, both
`handle_send_request` and `handle_send_hls_request` fail with
`"Not connected to peer: <id>"` without opening a stream. -/
theorem c5_target_resolution (dec : String → Except String EndpointAddr)
    (connected_peers : List (String × Nat)) (target : String) :
    (startsWithBrace target = false → resolveTargetId dec target = target) ∧
    (∀ addr, startsWithBrace target = true → dec target = .ok addr →
      resolveTargetId dec target = addr.id) ∧
    (lookup connected_peers (resolveTargetId dec target) = none →
      handleSendRequestConn dec connected_peers target =
        .error ("Not connected to peer: " ++ resolveTargetId dec target) ∧
      handleSendHlsRequestConn dec connected_peers target =
        .error ("Not connected to peer: " ++ resolveTargetId dec target)) := by
  refine ⟨?_, ?_, ?_⟩
  · intro hb
    simp [resolveTargetId, hb]
  · intro addr hb hdec
    simp [resolveTargetId, hb, hdec]
  · intro hl
    constructor <;> simp [handleSendRequestConn, handleSendHlsRequestConn, hl]

/-- Concrete instantiation of C5: a bare id with an empty registry. -/
theorem c5_target_resolution_witness :
    resolveTargetId (fun _ => Except.error "bad") "abc" = "abc" ∧
    handleSendRequestConn (fun _ => Except.error "bad") [] "abc" =
      .error ("Not connected to peer: " ++
        resolveTargetId (fun _ => Except.error "bad") "abc") :=
  ⟨(c5_target_resolution (fun _ => Except.error "bad") [] "abc").1 (by decide),
   ((c5_target_resolution (fun _ => Except.error "bad") [] "abc").2.2 rfl).1⟩

/-! ### Connection registry (C6) -/

theorem lookup_insertReplace (m : List (String × Nat)) (k : String) (c : Nat) :
    lookup (insertReplace m k c) k = some c := by
  induction m with
  | nil => simp [insertReplace, lookup]
  | cons p rest ih =>
    obtain ⟨pk, pv⟩ := p
    by_cases hk : pk = k <;> simp [insertReplace, lookup, hk, ih]

theorem keyCount_insertReplace (m : List (String × Nat)) (k : String) (c : Nat)
    (key : String) :
    keyCount (insertReplace m k c) key =
      if k = key then max (keyCount m key) 1 else keyCount m key := by
  induction m with
  | nil =>
    by_cases hk : k = key <;> simp [insertReplace, keyCount, hk]
  | cons p rest ih =>
    obtain ⟨pk, pv⟩ := p
    by_cases hpk : pk = k
    · subst hpk
      by_cases hk : pk = key <;> simp [insertReplace, keyCount, hk]
    · by_cases hk : k = key
      · have hpkey : pk ≠ key := fun he => hpk (he.trans hk.symm)
        subst hk
        simp [insertReplace, keyCount, hpk, hpkey, ih]
      · simp [insertReplace, keyCount, hpk, hk, ih]

theorem runRegOps_registry_unique (ops : List RegOp) (key : String) :
    keyCount (runRegOps ops).registry key ≤ 1 := by
  suffices hgen : ∀ st : RegState, keyCount st.registry key ≤ 1 →
      keyCount (ops.foldl applyRegOp st).registry key ≤ 1 by
    exact hgen ⟨[], []⟩ (by simp [keyCount])
  induction ops with
  | nil => intro st hst; simpa using hst
  | cons op rest ih =>
    intro st hst
    rw [List.foldl_cons]
    refine ih _ ?_
    cases op with
    | accept peer conn =>
      simp only [applyRegOp, keyCount_insertReplace]
      split <;> omega
    | dial peer conn =>
      simp only [applyRegOp, keyCount_insertReplace]
      split <;> omega

theorem runRegOps_closed_empty (ops : List RegOp) : (runRegOps ops).closed = [] := by
  suffices hgen : ∀ st : RegState, (ops.foldl applyRegOp st).closed = st.closed by
    exact hgen ⟨[], []⟩
  induction ops with
  | nil => intro st; rfl
  | cons op rest ih =>
    intro st
    rw [List.foldl_cons, ih]
    cases op <;> rfl

/-- **C6 counterexample.** Registering twice for the same peer displaces
the first connection, but nothing closes it: the source only calls
`connected_peers.insert`, and the displaced handle's servicing tasks
keep clones of the connection, so the claimed clean close never
happens. -/
theorem c6_counterexample :
    lookup (runRegOps [RegOp.accept "p" 1, RegOp.accept "p" 2]).registry "p" =
      some 2 ∧
    ¬ (1 ∈ (runRegOps [RegOp.accept "p" 1, RegOp.accept "p" 2]).closed) := by
  decide

/-- **C6 (amended).** After any sequence of accept and dial operations
the registry holds at most one entry per peer id, and insertion of a
duplicate key replaces the previous connection; the displaced
connection is merely dropped from the map — the event loop closes no
connection at registration. -/
theorem c6_registry_uniqueness (ops : List RegOp) :
    (∀ key, keyCount (runRegOps ops).registry key ≤ 1) ∧
    (∀ (st : RegState) (peer : String) (conn : Nat),
      lookup (applyRegOp st (RegOp.accept peer conn)).registry peer = some conn ∧
      lookup (applyRegOp st (RegOp.dial peer conn)).registry peer = some conn) ∧
    (runRegOps ops).closed = [] := by
  refine ⟨runRegOps_registry_unique ops, ?_, runRegOps_closed_empty ops⟩
  intro st peer conn
  exact ⟨lookup_insertReplace _ _ _, lookup_insertReplace _ _ _⟩

/-! ### Path-type monitor (C7) -/

theorem monitorRun_ticks_le (samples : List PeerConnectionType) :
    ∀ current, (monitorRun current samples).2 ≤ samples.length := by
  induction samples with
  | nil => intro current; simp [monitorRun]
  | cons s rest ih =>
    intro current
    by_cases hne : s = current
    · have := ih current
      simp [monitorRun, hne]
      omega
    · by_cases hd : s = PeerConnectionType.Direct
      · subst hd
        simp [monitorRun, hne]
      · have := ih s
        simp [monitorRun, hne, hd]
        omega

theorem monitorRun_chain (samples : List PeerConnectionType) :
    ∀ current, List.Chain' (· ≠ ·) (current :: (monitorRun current samples).1) := by
  induction samples with
  | nil => intro current; simp [monitorRun]
  | cons s rest ih =>
    intro current
    by_cases hne : s = current
    · simpa [monitorRun, hne] using ih current
    · by_cases hd : s = PeerConnectionType.Direct
      · subst hd
        simp [monitorRun, hne]
        exact fun h => hne h.symm
      · have := ih s
        simp [monitorRun, hne, hd] at this ⊢
        exact ⟨fun h => hne h.symm, this⟩

theorem monitorRun_direct_stops (samples : List PeerConnectionType) :
    ∀ current, PeerConnectionType.Direct ∈ (monitorRun current samples).1 →
    (monitorRun current samples).1.getLast? = some PeerConnectionType.Direct ∧
    (monitorRun current samples).1.count PeerConnectionType.Direct = 1 := by
  induction samples with
  | nil => intro current hmem; simp [monitorRun] at hmem
  | cons s rest ih =>
    intro current hmem
    by_cases hne : s = current
    · simp [monitorRun, hne] at hmem ⊢
      exact ih current hmem
    · by_cases hd : s = PeerConnectionType.Direct
      · subst hd
        simp [monitorRun, hne]
      · have hrun : (monitorRun current (s :: rest)).1 = s :: (monitorRun s rest).1 := by
          simp [monitorRun, hne, hd]
        rw [hrun] at hmem ⊢
        rw [List.mem_cons] at hmem
        rcases hmem with hmem | hmem
        · exact absurd hmem.symm hd
        · obtain ⟨hlast, hcount⟩ := ih s hmem
          have hds : ¬ (PeerConnectionType.Direct = s) := fun hh => hd hh.symm
          constructor
          · rcases hes : (monitorRun s rest).1 with _ | ⟨b, tl⟩
            · simp [hes] at hmem
            · rw [hes] at hlast
              rw [List.getLast?_cons_cons]
              exact hlast
          · simp [List.count_cons, hcount, hds]

/-- **C7 counterexample.** The claim says monitoring stops as soon as
`Direct` is observed. When the connection is already `Direct` at
registration, the first tick observes `Direct` yet monitoring continues
(here for a second tick, which even emits a change away from
`Direct`). -/
theorem c7_counterexample :
    monitorRun PeerConnectionType.Direct
        [PeerConnectionType.Direct, PeerConnectionType.Relay] =
      ([PeerConnectionType.Relay], 2) ∧
    ¬ ((monitorRun PeerConnectionType.Direct
        [PeerConnectionType.Direct, PeerConnectionType.Relay]).2 = 1) := by
  decide

/-- **C7 (amended).** The monitor samples at most the 2-minute window
(one tick per 5-second sample), emits `ConnectionTypeChanged` only when
the computed type differs from the last observed value, and stops as
soon as a *change to* `Direct` is observed (if the type is already
`Direct` when monitoring begins, sampling continues for the full
window); consequently, once `Direct` is emitted, it is the single and
final emission of that monitor. -/
theorem c7_monitor (current : PeerConnectionType)
    (samples : List PeerConnectionType) :
    (monitorRun current samples).2 ≤ samples.length ∧
    List.Chain' (· ≠ ·) (current :: (monitorRun current samples).1) ∧
    (PeerConnectionType.Direct ∈ (monitorRun current samples).1 →
      (monitorRun current samples).1.getLast? = some PeerConnectionType.Direct ∧
      (monitorRun current samples).1.count PeerConnectionType.Direct = 1) :=
  ⟨monitorRun_ticks_le samples current, monitorRun_chain samples current,
   monitorRun_direct_stops samples current⟩

/-- Concrete instantiation of the amended C7: a relay connection whose
third sample is the hole-punched direct path. -/
theorem c7_monitor_witness :
    (monitorRun PeerConnectionType.Relay
        [PeerConnectionType.Relay, PeerConnectionType.Mixed,
         PeerConnectionType.Direct]).1.getLast? = some PeerConnectionType.Direct ∧
    (monitorRun PeerConnectionType.Relay
        [PeerConnectionType.Relay, PeerConnectionType.Mixed,
         PeerConnectionType.Direct]).1.count PeerConnectionType.Direct = 1 :=
  (c7_monitor PeerConnectionType.Relay _).2.2 (by decide)

/-! ### Startup event order (C8) -/

/-- **C8 counterexample.** The claim says `Ready` precedes any
`RelayConnected`. The source waits for `endpoint.online()` and emits
`RelayConnected` first, then fetches the address and emits `Ready`. -/
theorem c8_counterexample :
    startupEvents true true "addr" =
      [StartEvent.RelayConnected, StartEvent.Ready "addr"] ∧
    ¬ readyPrecedesRelay (startupEvents true true "addr") := by
  constructor
  · rfl
  · intro hcl
    obtain ⟨a, ha⟩ := hcl [] [StartEvent.Ready "addr"] rfl
    simp at ha

/-- **C8 (amended).** After a successful bind the loop emits
`Ready{node_addr}` exactly once, optionally preceded by one
`RelayConnected` (emitted only when the endpoint comes online within
the 30-second wait); every `RelayConnected` in the startup sequence
precedes `Ready`, and a failed bind emits nothing. -/
theorem c8_startup_order (online : Bool) (addr : String) :
    (startupEvents true online addr).count (StartEvent.Ready addr) = 1 ∧
    (online = false → StartEvent.RelayConnected ∉ startupEvents true online addr) ∧
    (∀ pre post, startupEvents true online addr =
        pre ++ StartEvent.Ready addr :: post →
      StartEvent.RelayConnected ∉ post) ∧
    startupEvents false online addr = [] := by
  refine ⟨?_, ?_, ?_, rfl⟩
  · cases online <;> simp [startupEvents]
  · intro honline
    subst honline
    simp [startupEvents]
  · intro pre post heq
    cases online with
    | false =>
      simp only [startupEvents, if_true, if_false] at heq
      cases pre with
      | nil =>
        simp at heq
        simp [heq]
      | cons a pre2 =>
        simp at heq
    | true =>
      simp only [startupEvents, if_true] at heq
      cases pre with
      | nil => simp at heq
      | cons a pre2 =>
        simp at heq
        obtain ⟨_, heq2⟩ := heq
        cases pre2 with
        | nil =>
          simp at heq2
          simp [heq2]
        | cons b pre3 =>
          simp at heq2

/-- Concrete instantiation of the amended C8: without relay, no
`RelayConnected` is emitted at all. -/
theorem c8_startup_order_witness :
    (startupEvents true false "a").count (StartEvent.Ready "a") = 1 ∧
    StartEvent.RelayConnected ∉ startupEvents true false "a" :=
  ⟨(c8_startup_order false "a").1, (c8_startup_order false "a").2.1 rfl⟩

/-! ### Identity store (C9) -/

/-- **C9.** A readable 32-byte file at `p` is adopted, so two
consecutive `Host::new` calls with `keypair_path = p` derive identical
public node identifiers (regardless of the randomness and persistence
outcomes of each call); a file of the wrong length or an unreadable
path falls back to a freshly generated key with persistence attempted,
and the generated secret is returned whether or not the write
succeeds. -/
theorem c9_stable_identity (readFile : String → Option (List Nat)) (p : String)
    (bytes fresh1 fresh2 : List Nat) (w1 w2 : Bool)
    (derivePub : List Nat → String) :
    (readFile p = some bytes → bytes.length = 32 →
      (load_or_generate_keypair readFile fresh1 w1 (some p)).secret = bytes ∧
      hostNodeId derivePub readFile fresh1 w1 (some p) =
        hostNodeId derivePub readFile fresh2 w2 (some p)) ∧
    (readFile p = some bytes → bytes.length ≠ 32 →
      load_or_generate_keypair readFile fresh1 w1 (some p) =
        ⟨fresh1, true, true, w1⟩) ∧
    (readFile p = none →
      load_or_generate_keypair readFile fresh1 w1 (some p) =
        ⟨fresh1, true, true, w1⟩) := by
  refine ⟨?_, ?_, ?_⟩
  · intro hread hlen
    simp [load_or_generate_keypair, hostNodeId, hread, hlen]
  · intro hread hlen
    simp [load_or_generate_keypair, hread, hlen]
  · intro hread
    simp [load_or_generate_keypair, hread]

/-- Concrete instantiation of C9: a 32-byte key file is adopted under
different randomness and write outcomes; an unreadable path generates. -/
theorem c9_stable_identity_witness :
    ((load_or_generate_keypair (fun _ => some (List.replicate 32 7)) [1] true
        (some "k")).secret = List.replicate 32 7 ∧
      hostNodeId (fun s => toString s.length)
          (fun _ => some (List.replicate 32 7)) [1] true (some "k") =
        hostNodeId (fun s => toString s.length)
          (fun _ => some (List.replicate 32 7)) [2] false (some "k")) ∧
    load_or_generate_keypair (fun _ => none) [1] false (some "k") =
      ⟨[1], true, true, false⟩ :=
  ⟨(c9_stable_identity (fun _ => some (List.replicate 32 7)) "k"
      (List.replicate 32 7) [1] [2] true false (fun s => toString s.length)).1
      rfl (by simp),
   (c9_stable_identity (fun _ => none) "k" [] [1] [2] false false
      (fun s => toString s.length)).2.2 rfl⟩

/-! ### FinishHlsStream non-atomicity (C10) -/

theorem lookup_none_of_keyCount_zero {α : Type} (m : List (String × α))
    (k : String) (h : keyCount m k = 0) : lookup m k = none := by
  induction m with
  | nil => rfl
  | cons q rest ih =>
    obtain ⟨qk, qv⟩ := q
    by_cases hk : qk = k
    · simp [keyCount, hk] at h
    · simp [keyCount, hk] at h
      simp [lookup, hk]
      exact ih h

theorem lookup_removeKey_self {α : Type} (m : List (String × α)) (k : String)
    (h : keyCount m k ≤ 1) : lookup (removeKey m k) k = none := by
  induction m with
  | nil => rfl
  | cons q rest ih =>
    obtain ⟨qk, qv⟩ := q
    by_cases hk : qk = k
    · subst hk
      have h0 : keyCount rest qk = 0 := by
        simp [keyCount] at h
        omega
      simp [removeKey]
      exact lookup_none_of_keyCount_zero rest qk h0
    · have h1 : keyCount rest k ≤ 1 := by
        simp [keyCount, hk] at h
        omega
      simp [removeKey, lookup, hk]
      exact ih h1

/-- **C10.** `FinishHlsStream` removes the stream's send half from the
table before writing the zero terminator: for a stream id in the table,
the entry is gone in the post-state of every outcome; a failed
terminator write or transport finish returns an error anyway (so the
operation is not atomic); and a retry with the same id then fails with
the not-found error. -/
theorem c10_finish_not_atomic (st : LoopState) (id : String) (buf : List Nat)
    (hl : lookup st.hls_streams id = some buf)
    (hcnt : keyCount st.hls_streams id ≤ 1) :
    (∀ (w : WriteOutcome) (f : Bool),
      lookup (finishHlsStreamCmd st id w f).1.hls_streams id = none) ∧
    (finishHlsStreamCmd st id .failed true).2 =
      .error "Failed to write terminator" ∧
    (∀ n, (finishHlsStreamCmd st id (.accepted n) false).2 =
      .error "Failed to finish stream") ∧
    (∀ (w : WriteOutcome) (f : Bool) (w2 : WriteOutcome) (f2 : Bool),
      finishHlsStreamCmd (finishHlsStreamCmd st id w f).1 id w2 f2 =
      ((finishHlsStreamCmd st id w f).1,
       .error ("HLS stream not found: " ++ id))) := by
  have hrem := lookup_removeKey_self st.hls_streams id hcnt
  refine ⟨?_, ?_, ?_, ?_⟩
  · intro w f
    cases w <;> cases f <;> simp [finishHlsStreamCmd, writeBare, hl, hrem]
  · simp [finishHlsStreamCmd, writeBare, hl]
  · intro n
    simp [finishHlsStreamCmd, writeBare, hl]
  · intro w f w2 f2
    have hgone : lookup (finishHlsStreamCmd st id w f).1.hls_streams id = none := by
      cases w <;> cases f <;> simp [finishHlsStreamCmd, writeBare, hl, hrem]
    generalize hst2 : (finishHlsStreamCmd st id w f).1 = st2 at hgone ⊢
    simp [finishHlsStreamCmd, hgone]

/-- Concrete instantiation of C10 on a one-stream table with a failing
terminator write. -/
theorem c10_finish_not_atomic_witness :
    lookup (finishHlsStreamCmd ⟨[], [("s", [9])], []⟩ "s" WriteOutcome.failed
        true).1.hls_streams "s" = none ∧
    (finishHlsStreamCmd ⟨[], [("s", [9])], []⟩ "s" WriteOutcome.failed true).2 =
      .error "Failed to write terminator" ∧
    finishHlsStreamCmd
        (finishHlsStreamCmd ⟨[], [("s", [9])], []⟩ "s" WriteOutcome.failed true).1
        "s" (WriteOutcome.accepted 4) true =
      ((finishHlsStreamCmd ⟨[], [("s", [9])], []⟩ "s" WriteOutcome.failed true).1,
       .error "HLS stream not found: s") :=
  ⟨(c10_finish_not_atomic ⟨[], [("s", [9])], []⟩ "s" [9] rfl (by decide)).1
     .failed true,
   (c10_finish_not_atomic ⟨[], [("s", [9])], []⟩ "s" [9] rfl (by decide)).2.1,
   (c10_finish_not_atomic ⟨[], [("s", [9])], []⟩ "s" [9] rfl (by decide)).2.2.2
     .failed true (.accepted 4) true⟩

/-- Concrete instantiation of the C1 round-trip at representative
values of a request and a response variant. -/
theorem c1_request_response_cbor_roundtrip_witness :
    decodeRequest (encodeRequest (MydiaRequest.Pairing
      ⟨ascii "ABC123", ascii "phone", ascii "mobile", some (ascii "Android")⟩)) =
      some (MydiaRequest.Pairing
        ⟨ascii "ABC123", ascii "phone", ascii "mobile", some (ascii "Android")⟩) ∧
    decodeResponse (encodeResponse (MydiaResponse.HlsHeader
      ⟨200, ascii "video/mp2t", 10, none, none⟩)) =
      some (MydiaResponse.HlsHeader ⟨200, ascii "video/mp2t", 10, none, none⟩) :=
  ⟨c1_request_response_cbor_roundtrip.1 _ (by decide),
   c1_request_response_cbor_roundtrip.2 _ (by decide)⟩

end Mydia
